import Mathlib

/-!
Shallow embedding of the reconciliation core of `alexa-photos`:
the persisted mapping store (`src/state/store.ts`, SQLite table
`photo_mappings`) and the sync engine (`src/sync/engine.ts`,
class `SyncEngine`), together with the Amazon-side batch semantics
used by the engine (`src/amazon/client.ts`).

The store is modelled as a list of rows kept in rowid order
(`INSERT OR REPLACE` deletes the conflicting row and appends the fresh
one, so an index scan without `ORDER BY` returns rows in insertion
order).  The engine's collaborators (iCloud client, Amazon client) are
modelled by an environment that fixes the listing returned by
`getPhotos` and the success or failure of each network call; every call
the engine makes to a collaborator is recorded in an event trace.
-/

namespace AlexaPhotos

/-- A photo as listed by the iCloud client (`ICloudPhoto`): the engine
only reads `id` and `checksum`. -/
structure ICloudPhoto where
  id : String
  checksum : String
deriving DecidableEq, Repr

/-- A row of the `photo_mappings` table (`PhotoMapping` in
`src/state/store.ts`). `syncedAt` is modelled as a natural-number
timestamp. -/
structure PhotoMapping where
  icloudId : String
  icloudChecksum : String
  amazonId : String
  syncedAt : Nat
deriving DecidableEq, Repr

/-- `StateStore.getMapping`: point lookup by `icloud_id`. -/
def getMapping (db : List PhotoMapping) (icloudId : String) : Option PhotoMapping :=
  db.find? (fun r => decide (r.icloudId = icloudId))

/-- `StateStore.getMappingByChecksum`: lookup by `icloud_checksum`;
with several rows sharing a checksum the query returns the first in
scan order. -/
def getMappingByChecksum (db : List PhotoMapping) (checksum : String) : Option PhotoMapping :=
  db.find? (fun r => decide (r.icloudChecksum = checksum))

/-- `StateStore.addMapping`: `INSERT OR REPLACE` keyed on `icloud_id` —
the conflicting row is deleted and the new row appended, with
`synced_at` set to the current time. -/
def addMapping (db : List PhotoMapping) (icloudId icloudChecksum amazonId : String)
    (now : Nat) : List PhotoMapping :=
  db.filter (fun r => !decide (r.icloudId = icloudId)) ++
    [⟨icloudId, icloudChecksum, amazonId, now⟩]

/-- `StateStore.removeMapping`: `DELETE FROM photo_mappings WHERE icloud_id = ?`. -/
def removeMapping (db : List PhotoMapping) (icloudId : String) : List PhotoMapping :=
  db.filter (fun r => !decide (r.icloudId = icloudId))

/-- `StateStore.removeMappings`: one transaction deleting each id in turn
and summing the per-statement `changes` counts. -/
def removeMappings (db : List PhotoMapping) (icloudIds : List String) :
    List PhotoMapping × Nat :=
  icloudIds.foldl
    (fun acc id =>
      (acc.1.filter (fun r => !decide (r.icloudId = id)),
       acc.2 + (acc.1.filter (fun r => decide (r.icloudId = id))).length))
    (db, 0)

/-- One call the engine makes to a collaborator, in the order issued. -/
inductive Ev where
  | getPhotos
  | downloadPhoto (photoId : String)
  | uploadPhoto (filename : String)
  | addToAlbumIfNotPresent (albumId : String) (nodeIds : List String)
  | removeFromAlbum (albumId : String) (nodeIds : List String)
  | trash (nodeIds : List String)
  | purge (nodeIds : List String)
  | checkAuth
  | findOrCreateAlbum (name : String)
deriving DecidableEq, Repr

/-- Is the event an `uploadPhoto` call (a content transfer to the target)? -/
def Ev.isUpload : Ev → Bool
  | .uploadPhoto _ => true
  | _ => false

/-- Is the event the source-listing fetch (`icloud.getPhotos`)? -/
def Ev.isGetPhotos : Ev → Bool
  | .getPhotos => true
  | _ => false

/-- Is the event the target auth check (`amazon.checkAuth`)? -/
def Ev.isCheckAuth : Ev → Bool
  | .checkAuth => true
  | _ => false

/-- Is the event a source content download (`icloud.downloadPhoto`)? -/
def Ev.isDownload : Ev → Bool
  | .downloadPhoto _ => true
  | _ => false

/-- Is the event part of target-side removal (detach from album, trash,
or purge)? -/
def Ev.isRemoval : Ev → Bool
  | .removeFromAlbum _ _ => true
  | .trash _ => true
  | .purge _ => true
  | _ => false

/-- Number of events in a trace satisfying a discriminator. -/
def countEv (p : Ev → Bool) (evs : List Ev) : Nat :=
  (evs.filter p).length

/-- The engine's environment for one or more cycles: the listing the
iCloud client returns, which collaborator calls succeed, and the
relevant configuration flags (`SYNC_DELETIONS`, album name).  `elapsed`
is the wall-clock time a cycle takes. -/
structure Env where
  photos : List ICloudPhoto
  getPhotosOk : Bool
  downloadOk : String → Bool
  uploadOk : String → Bool
  authOk : Bool
  removeBatchOk : Bool
  syncDeletions : Bool
  albumName : String
  elapsed : Nat

/-- The `lastSync` entry of `SyncMetrics`. -/
structure LastSync where
  timestamp : Nat
  durationMs : Nat
  photosAdded : Nat
  photosRemoved : Nat
  success : Bool
  error : Option String
deriving DecidableEq, Repr

/-- `SyncMetrics` (`src/sync/engine.ts`). -/
structure SyncMetrics where
  lastSync : Option LastSync
  totalSyncs : Nat
  totalErrors : Nat
  amazonAuthenticated : Bool
deriving DecidableEq, Repr

/-- The metrics value at engine construction. -/
def SyncMetrics.initial : SyncMetrics :=
  ⟨none, 0, 0, false⟩

/-- The mutable fields of a `SyncEngine` instance plus the store it
owns.  `nextNodeId` models Amazon's assignment of fresh node ids to
uploads; `time` models the process clock. -/
structure EngineState where
  db : List PhotoMapping
  isRunning : Bool
  amazonInit : Bool
  albumId : Option String
  metrics : SyncMetrics
  nextNodeId : Nat
  time : Nat
deriving DecidableEq, Repr

/-- Engine state at process start: empty store, idle, no Amazon client. -/
def EngineState.initial : EngineState :=
  ⟨[], false, false, none, SyncMetrics.initial, 0, 0⟩

/-- The node id Amazon assigns to the `n`-th fresh upload. -/
def freshNodeId (n : Nat) : String :=
  "amazon-node-" ++ toString n

/-- The album id `findOrCreateAlbum` resolves a name to. -/
def albumIdFor (name : String) : String :=
  "album:" ++ name

/-- The message of the error thrown when `checkAuth` returns false. -/
def authErrorMsg : String :=
  "Amazon Photos authentication failed"

/-- `SyncEngine.ensureAmazonClient`: construct and auth-check the Amazon
client on first use (the client field is assigned before the auth check,
so it stays set even when the check fails), then resolve the album id on
first use.  Both are cached for the process lifetime. -/
def ensureAmazonClient (env : Env) (s : EngineState) :
    Except String Unit × EngineState × List Ev :=
  let (r1, s1, e1) :=
    if s.amazonInit then
      (Except.ok (), s, ([] : List Ev))
    else
      let s' := { s with amazonInit := true }
      if env.authOk then
        (Except.ok (),
         { s' with metrics := { s'.metrics with amazonAuthenticated := true } },
         [Ev.checkAuth])
      else
        (Except.error authErrorMsg, s', [Ev.checkAuth])
  match r1 with
  | Except.error m => (Except.error m, s1, e1)
  | Except.ok _ =>
    match s1.albumId with
    | some _ => (Except.ok (), s1, e1)
    | none =>
      (Except.ok (), { s1 with albumId := some (albumIdFor env.albumName) },
       e1 ++ [Ev.findOrCreateAlbum env.albumName])

/-- `SyncEngine.addPhoto`: dedup lookup by checksum; on a hit reuse the
existing Amazon node and attach it to the album, otherwise download from
iCloud and upload to Amazon; in both cases upsert the mapping. -/
def addPhoto (env : Env) (s : EngineState) (p : ICloudPhoto) :
    Except String Unit × EngineState × List Ev :=
  match getMappingByChecksum s.db p.checksum with
  | some existing =>
    (Except.ok (),
     { s with db := addMapping s.db p.id p.checksum existing.amazonId s.time },
     [Ev.addToAlbumIfNotPresent (s.albumId.getD "") [existing.amazonId]])
  | none =>
    if env.downloadOk p.id then
      if env.uploadOk p.id then
        let nodeId := freshNodeId s.nextNodeId
        (Except.ok (),
         { s with
            db := addMapping s.db p.id p.checksum nodeId s.time,
            nextNodeId := s.nextNodeId + 1 },
         [Ev.downloadPhoto p.id, Ev.uploadPhoto (p.id ++ ".jpg"),
          Ev.addToAlbumIfNotPresent (s.albumId.getD "") [nodeId]])
      else
        (Except.error "upload failed", s, [Ev.downloadPhoto p.id])
    else
      (Except.error "download failed", s, [])

/-- The additions loop of `SyncEngine.run`: each `addPhoto` call is
wrapped in its own try/catch, a success increments `photosAdded`, a
failure is logged and the loop continues. -/
def processAdds (env : Env) :
    List ICloudPhoto → EngineState → Nat → EngineState × List Ev × Nat
  | [], s, added => (s, [], added)
  | p :: rest, s, added =>
    match addPhoto env s p with
    | (Except.ok _, s', e) =>
      let (s'', es, a) := processAdds env rest s' (added + 1)
      (s'', e ++ es, a)
    | (Except.error _, s', e) =>
      let (s'', es, a) := processAdds env rest s' added
      (s'', e ++ es, a)

/-- `SyncEngine.removePhotos`: detach the batch from the album, then
`deleteNodes` (trash then purge); only after those succeed remove each
mapping row.  A failure of the batch call is caught and logged, leaving
every row in place. -/
def removePhotos (env : Env) (s : EngineState) (maps : List PhotoMapping) :
    EngineState × List Ev :=
  let nodeIds := maps.map (·.amazonId)
  let detachEvs : List Ev :=
    match s.albumId with
    | some a => [Ev.removeFromAlbum a nodeIds]
    | none => []
  if env.removeBatchOk then
    ({ s with db := maps.foldl (fun d m => removeMapping d m.icloudId) s.db },
     detachEvs ++ [Ev.trash nodeIds, Ev.purge nodeIds])
  else
    (s, detachEvs)

/-- The `toAdd` diff of `SyncEngine.run`: listed photos whose id has no
mapping row. -/
def toAddOf (photos : List ICloudPhoto) (db : List PhotoMapping) : List ICloudPhoto :=
  let mappedIds := db.map (·.icloudId)
  photos.filter (fun p => !decide (p.id ∈ mappedIds))

/-- The `toRemove` diff of `SyncEngine.run`: mapping rows whose id is no
longer listed. -/
def toRemoveOf (photos : List ICloudPhoto) (db : List PhotoMapping) : List PhotoMapping :=
  let icloudIds := photos.map (·.id)
  db.filter (fun m => !decide (m.icloudId ∈ icloudIds))

/-- The `needsAmazon` condition of `SyncEngine.run`. -/
def needsAmazonOf (env : Env) (db : List PhotoMapping) : Bool :=
  decide (0 < (toAddOf env.photos db).length) ||
    (decide (0 < (toRemoveOf env.photos db).length) && env.syncDeletions)

/-- The `if (needsAmazon) await this.ensureAmazonClient()` step of
`SyncEngine.run`. -/
def maybeEnsure (env : Env) (s : EngineState) :
    Except String Unit × EngineState × List Ev :=
  if needsAmazonOf env s.db then ensureAmazonClient env s
  else (Except.ok (), s, ([] : List Ev))

/-- The removals step of `SyncEngine.run`: when `toRemove` is non-empty
and `SYNC_DELETIONS` is on, call `removePhotos` and set `photosRemoved`
to the whole batch size (the call swallows its own errors); otherwise
only log. -/
def maybeRemove (env : Env) (s2 : EngineState) (toRemove : List PhotoMapping) :
    EngineState × List Ev × Nat :=
  if 0 < toRemove.length then
    if env.syncDeletions then
      let r := removePhotos env s2 toRemove
      (r.1, r.2, toRemove.length)
    else (s2, ([] : List Ev), 0)
  else (s2, ([] : List Ev), 0)

/-- The body of `SyncEngine.run` between the single-flight guard and the
metrics write: fetch the listing, diff, lazily initialize the Amazon
client, process additions, process removals.  Returns the cycle outcome,
the state after the body, the event trace, and the `photosAdded` and
`photosRemoved` counters. -/
def runBody (env : Env) (s : EngineState) :
    Except String Unit × EngineState × List Ev × Nat × Nat :=
  if env.getPhotosOk then
    match maybeEnsure env s with
    | (Except.error m, s1, e1) => (Except.error m, s1, Ev.getPhotos :: e1, 0, 0)
    | (Except.ok _, s1, e1) =>
      let (s2, e2, added) := processAdds env (toAddOf env.photos s.db) s1 0
      let (s3, e3, removed) := maybeRemove env s2 (toRemoveOf env.photos s.db)
      (Except.ok (), s3, Ev.getPhotos :: (e1 ++ e2 ++ e3), added, removed)
  else
    (Except.error "getPhotos failed", s, [Ev.getPhotos], 0, 0)

/-- The result of one `run()` call: the engine state afterwards, the
trace of collaborator calls, and whether the returned promise resolved
or rejected. -/
structure RunResult where
  state : EngineState
  events : List Ev
  outcome : Except String Unit
deriving Repr

/-- `SyncEngine.run`: the single-flight guard, the cycle body, the
wholesale `lastSync` write with counter increment on both the success
and the error path, and the `finally` block clearing `isRunning`. -/
def run (env : Env) (s0 : EngineState) : RunResult :=
  if s0.isRunning then
    ⟨s0, [], Except.ok ()⟩
  else
    let s1 := { s0 with isRunning := true }
    let startTime := s0.time
    match runBody env s1 with
    | (Except.ok _, s2, evs, added, removed) =>
      ⟨{ s2 with
          isRunning := false,
          time := startTime + env.elapsed,
          metrics := { s2.metrics with
            lastSync := some ⟨startTime + env.elapsed, env.elapsed, added, removed,
              true, none⟩,
            totalSyncs := s2.metrics.totalSyncs + 1 } },
       evs, Except.ok ()⟩
    | (Except.error m, s2, evs, added, removed) =>
      ⟨{ s2 with
          isRunning := false,
          time := startTime + env.elapsed,
          metrics := { s2.metrics with
            lastSync := some ⟨startTime + env.elapsed, env.elapsed, added, removed,
              false, some m⟩,
            totalErrors := s2.metrics.totalErrors + 1 } },
       evs, Except.error m⟩

/-- An environment in which every collaborator call succeeds and
deletion sync is enabled. -/
def allOkEnv (photos : List ICloudPhoto) : Env :=
  ⟨photos, true, fun _ => true, fun _ => true, true, true, true, "Echo Show", 0⟩

/-- The `icloud_id` column of a store snapshot. -/
def dbIds (db : List PhotoMapping) : List String :=
  db.map (·.icloudId)

theorem mem_dbIds {db : List PhotoMapping} {x : String} :
    x ∈ dbIds db ↔ ∃ r ∈ db, r.icloudId = x := by
  simp [dbIds]

theorem dbIds_addMapping {db : List PhotoMapping} {i c a : String} {t : Nat} {x : String} :
    x ∈ dbIds (addMapping db i c a t) ↔ x ∈ dbIds db ∨ x = i := by
  simp only [dbIds, addMapping, List.map_append, List.mem_append, List.mem_map,
    List.mem_filter, Bool.not_eq_true', decide_eq_false_iff_not, List.map_cons,
    List.map_nil, List.mem_singleton]
  constructor
  · rintro (⟨r, ⟨hr, _⟩, rfl⟩ | h)
    · exact Or.inl ⟨r, hr, rfl⟩
    · exact Or.inr h
  · rintro (⟨r, hr, rfl⟩ | rfl)
    · by_cases h : r.icloudId = i
      · exact Or.inr h
      · exact Or.inl ⟨r, ⟨hr, h⟩, rfl⟩
    · exact Or.inr rfl

theorem mem_addMapping_of_ne {db : List PhotoMapping} {i c a : String} {t : Nat}
    {m : PhotoMapping} (hm : m ∈ db) (hne : m.icloudId ≠ i) :
    m ∈ addMapping db i c a t := by
  simp only [addMapping, List.mem_append, List.mem_filter, Bool.not_eq_true',
    decide_eq_false_iff_not]
  exact Or.inl ⟨hm, hne⟩

/-- `addPhoto` either succeeds and upserts exactly one row for the
processed photo (touching nothing but the store and the fresh-id
counter), or fails and leaves the state unchanged. -/
theorem addPhoto_cases (env : Env) (s : EngineState) (p : ICloudPhoto) :
    ((addPhoto env s p).1 = Except.ok () ∧
      ∃ amz n, (addPhoto env s p).2.1 =
        { s with db := addMapping s.db p.id p.checksum amz s.time, nextNodeId := n }) ∨
    ((addPhoto env s p).1 ≠ Except.ok () ∧ (addPhoto env s p).2.1 = s) := by
  unfold addPhoto
  cases h : getMappingByChecksum s.db p.checksum with
  | some existing =>
    exact Or.inl ⟨rfl, existing.amazonId, s.nextNodeId, rfl⟩
  | none =>
    by_cases hd : env.downloadOk p.id = true
    · by_cases hu : env.uploadOk p.id = true
      · rw [if_pos hd, if_pos hu]
        exact Or.inl ⟨rfl, freshNodeId s.nextNodeId, s.nextNodeId + 1, rfl⟩
      · rw [if_pos hd, if_neg hu]
        exact Or.inr ⟨by simp, rfl⟩
    · rw [if_neg hd]
      exact Or.inr ⟨by simp, rfl⟩

theorem addPhoto_frame (env : Env) (s : EngineState) (p : ICloudPhoto) :
    (addPhoto env s p).2.1.isRunning = s.isRunning ∧
    (addPhoto env s p).2.1.amazonInit = s.amazonInit ∧
    (addPhoto env s p).2.1.albumId = s.albumId ∧
    (addPhoto env s p).2.1.metrics = s.metrics ∧
    (addPhoto env s p).2.1.time = s.time := by
  rcases addPhoto_cases env s p with ⟨_, amz, n, h⟩ | ⟨_, h⟩ <;> rw [h] <;>
    exact ⟨rfl, rfl, rfl, rfl, rfl⟩

theorem addPhoto_events (env : Env) (s : EngineState) (p : ICloudPhoto) :
    ∀ ev ∈ (addPhoto env s p).2.2,
      ev.isGetPhotos = false ∧ ev.isCheckAuth = false ∧ ev.isRemoval = false := by
  unfold addPhoto
  cases getMappingByChecksum s.db p.checksum with
  | some existing =>
    intro ev hev
    simp only [List.mem_singleton] at hev
    subst hev
    exact ⟨rfl, rfl, rfl⟩
  | none =>
    by_cases hd : env.downloadOk p.id = true
    · by_cases hu : env.uploadOk p.id = true
      · rw [if_pos hd, if_pos hu]
        intro ev hev
        simp only [List.mem_cons, List.not_mem_nil, or_false] at hev
        rcases hev with rfl | rfl | rfl <;> exact ⟨rfl, rfl, rfl⟩
      · rw [if_pos hd, if_neg hu]
        intro ev hev
        simp only [List.mem_singleton] at hev
        subst hev
        exact ⟨rfl, rfl, rfl⟩
    · rw [if_neg hd]
      intro ev hev
      simp at hev

theorem addPhoto_ok (env : Env) (s : EngineState) (p : ICloudPhoto)
    (hd : env.downloadOk p.id = true) (hu : env.uploadOk p.id = true) :
    (addPhoto env s p).1 = Except.ok () := by
  unfold addPhoto
  cases getMappingByChecksum s.db p.checksum with
  | some existing => rfl
  | none => simp [hd, hu]

theorem processAdds_frame (env : Env) :
    ∀ (l : List ICloudPhoto) (s : EngineState) (a : Nat),
      (processAdds env l s a).1.isRunning = s.isRunning ∧
      (processAdds env l s a).1.amazonInit = s.amazonInit ∧
      (processAdds env l s a).1.albumId = s.albumId ∧
      (processAdds env l s a).1.metrics = s.metrics ∧
      (processAdds env l s a).1.time = s.time
  | [], s, a => by simp [processAdds]
  | p :: rest, s, a => by
    have hf := addPhoto_frame env s p
    rcases hr : addPhoto env s p with ⟨r, s1, e⟩
    rw [hr] at hf
    cases r with
    | ok u =>
      have ih := processAdds_frame env rest s1 (a + 1)
      simp only [processAdds, hr]
      exact ⟨ih.1.trans hf.1, ih.2.1.trans hf.2.1, ih.2.2.1.trans hf.2.2.1,
        ih.2.2.2.1.trans hf.2.2.2.1, ih.2.2.2.2.trans hf.2.2.2.2⟩
    | error m =>
      have ih := processAdds_frame env rest s1 a
      simp only [processAdds, hr]
      exact ⟨ih.1.trans hf.1, ih.2.1.trans hf.2.1, ih.2.2.1.trans hf.2.2.1,
        ih.2.2.2.1.trans hf.2.2.2.1, ih.2.2.2.2.trans hf.2.2.2.2⟩

theorem processAdds_events (env : Env) :
    ∀ (l : List ICloudPhoto) (s : EngineState) (a : Nat),
      ∀ ev ∈ (processAdds env l s a).2.1,
        ev.isGetPhotos = false ∧ ev.isCheckAuth = false ∧ ev.isRemoval = false
  | [], s, a => by simp [processAdds]
  | p :: rest, s, a => by
    have he := addPhoto_events env s p
    rcases hr : addPhoto env s p with ⟨r, s1, e⟩
    rw [hr] at he
    cases r with
    | ok u =>
      have ih := processAdds_events env rest s1 (a + 1)
      simp only [processAdds, hr]
      intro ev hev
      rcases List.mem_append.mp hev with h | h
      · exact he ev h
      · exact ih ev h
    | error m =>
      have ih := processAdds_events env rest s1 a
      simp only [processAdds, hr]
      intro ev hev
      rcases List.mem_append.mp hev with h | h
      · exact he ev h
      · exact ih ev h

/-- Rows whose id is not among the processed photos survive the
additions loop untouched. -/
theorem processAdds_preserves (env : Env) :
    ∀ (l : List ICloudPhoto) (s : EngineState) (a : Nat) (m : PhotoMapping),
      m ∈ s.db → m.icloudId ∉ l.map (·.id) →
      m ∈ (processAdds env l s a).1.db
  | [], s, a, m => by simp [processAdds]
  | p :: rest, s, a, m => by
    intro hm hni
    simp only [List.map_cons, List.mem_cons, not_or] at hni
    have hstep : ∀ s1 : EngineState,
        (addPhoto env s p).2.1 = s1 → m ∈ s1.db := by
      intro s1 h1
      rcases addPhoto_cases env s p with ⟨_, amz, n, h⟩ | ⟨_, h⟩
      · rw [h] at h1
        rw [← h1]
        exact mem_addMapping_of_ne hm hni.1
      · rw [h] at h1
        rw [← h1]
        exact hm
    rcases hr : addPhoto env s p with ⟨r, s1, e⟩
    have hm1 : m ∈ s1.db := hstep s1 (by rw [hr])
    cases r with
    | ok u =>
      have ih := processAdds_preserves env rest s1 (a + 1) m hm1 hni.2
      simp only [processAdds, hr]
      exact ih
    | error m2 =>
      have ih := processAdds_preserves env rest s1 a m hm1 hni.2
      simp only [processAdds, hr]
      exact ih

/-- With every download and upload succeeding, the id column after the
additions loop is the old id column plus the processed photo ids. -/
theorem processAdds_ids (env : Env)
    (hd : ∀ i, env.downloadOk i = true) (hu : ∀ i, env.uploadOk i = true) :
    ∀ (l : List ICloudPhoto) (s : EngineState) (a : Nat) (x : String),
      (x ∈ dbIds (processAdds env l s a).1.db ↔
        x ∈ dbIds s.db ∨ x ∈ l.map (·.id))
  | [], s, a, x => by simp [processAdds]
  | p :: rest, s, a, x => by
    rcases addPhoto_cases env s p with ⟨hok, amz, n, h⟩ | ⟨hbad, _⟩
    · rcases hr : addPhoto env s p with ⟨r, s1, e⟩
      rw [hr] at hok h
      simp only at hok h
      subst hok
      have ih := processAdds_ids env hd hu rest s1 (a + 1) x
      simp only [processAdds, hr]
      rw [ih, h]
      simp only [List.map_cons, List.mem_cons]
      constructor
      · rintro (h2 | h2)
        · rcases dbIds_addMapping.mp h2 with h3 | h3
          · exact Or.inl h3
          · exact Or.inr (Or.inl h3)
        · exact Or.inr (Or.inr h2)
      · rintro (h2 | h2 | h2)
        · exact Or.inl (dbIds_addMapping.mpr (Or.inl h2))
        · exact Or.inl (dbIds_addMapping.mpr (Or.inr h2))
        · exact Or.inr h2
    · exact absurd (addPhoto_ok env s p (hd p.id) (hu p.id)) hbad

theorem processAdds_added_le (env : Env) :
    ∀ (l : List ICloudPhoto) (s : EngineState) (a : Nat),
      (processAdds env l s a).2.2 ≤ a + l.length
  | [], s, a => by simp [processAdds]
  | p :: rest, s, a => by
    rcases hr : addPhoto env s p with ⟨r, s1, e⟩
    cases r with
    | ok u =>
      have ih := processAdds_added_le env rest s1 (a + 1)
      rcases hX : processAdds env rest s1 (a + 1) with ⟨s2, es2, a2⟩
      simp only [hX] at ih
      simp only [processAdds, hr, hX, List.length_cons]
      omega
    | error m =>
      have ih := processAdds_added_le env rest s1 a
      rcases hX : processAdds env rest s1 a with ⟨s2, es2, a2⟩
      simp only [hX] at ih
      simp only [processAdds, hr, hX, List.length_cons]
      omega

theorem processAdds_added_allok (env : Env)
    (hd : ∀ i, env.downloadOk i = true) (hu : ∀ i, env.uploadOk i = true) :
    ∀ (l : List ICloudPhoto) (s : EngineState) (a : Nat),
      (processAdds env l s a).2.2 = a + l.length
  | [], s, a => by simp [processAdds]
  | p :: rest, s, a => by
    rcases hr : addPhoto env s p with ⟨r, s1, e⟩
    cases r with
    | ok u =>
      have ih := processAdds_added_allok env hd hu rest s1 (a + 1)
      simp only [processAdds, hr]
      simp only [ih, List.length_cons]
      omega
    | error m =>
      have : (addPhoto env s p).1 = Except.ok () := addPhoto_ok env s p (hd p.id) (hu p.id)
      rw [hr] at this
      simp at this

theorem ensure_frame (env : Env) (s : EngineState) :
    (ensureAmazonClient env s).2.1.db = s.db ∧
    (ensureAmazonClient env s).2.1.isRunning = s.isRunning ∧
    (ensureAmazonClient env s).2.1.nextNodeId = s.nextNodeId ∧
    (ensureAmazonClient env s).2.1.time = s.time ∧
    (ensureAmazonClient env s).2.1.metrics.lastSync = s.metrics.lastSync ∧
    (ensureAmazonClient env s).2.1.metrics.totalSyncs = s.metrics.totalSyncs ∧
    (ensureAmazonClient env s).2.1.metrics.totalErrors = s.metrics.totalErrors := by
  unfold ensureAmazonClient
  by_cases hi : s.amazonInit = true <;> by_cases ha : env.authOk = true <;>
    simp only [hi, ha, if_pos, if_neg, if_true, if_false, Bool.not_eq_true] <;>
    cases s.albumId <;> simp

theorem ensure_auth_flag (env : Env) (s : EngineState) :
    (ensureAmazonClient env s).2.1.metrics.amazonAuthenticated =
      (s.metrics.amazonAuthenticated || (!s.amazonInit && env.authOk)) := by
  unfold ensureAmazonClient
  by_cases hi : s.amazonInit = true <;> by_cases ha : env.authOk = true <;>
    simp only [hi, ha, if_true, if_false, Bool.not_true, Bool.not_false,
      Bool.false_and, Bool.true_and, Bool.and_false, Bool.and_true, Bool.or_false] <;>
    cases s.albumId <;> simp

theorem ensure_outcome (env : Env) (s : EngineState) :
    (ensureAmazonClient env s).1 =
      (if !s.amazonInit && !env.authOk then Except.error authErrorMsg
       else Except.ok ()) := by
  unfold ensureAmazonClient
  by_cases hi : s.amazonInit = true <;> by_cases ha : env.authOk = true <;>
    simp only [hi, ha, if_true, if_false, Bool.not_true, Bool.not_false,
      Bool.false_and, Bool.true_and, Bool.and_false, Bool.and_true] <;>
    cases s.albumId <;> simp

theorem ensure_checkAuth_count (env : Env) (s : EngineState) :
    countEv Ev.isCheckAuth (ensureAmazonClient env s).2.2 =
      (if s.amazonInit = true then 0 else 1) := by
  unfold ensureAmazonClient
  by_cases hi : s.amazonInit = true <;> by_cases ha : env.authOk = true <;>
    simp only [hi, ha, if_true, if_false] <;>
    cases s.albumId <;> simp [countEv, Ev.isCheckAuth]

theorem ensure_events_list (env : Env) (s : EngineState) :
    (ensureAmazonClient env s).2.2 = [] ∨
    (ensureAmazonClient env s).2.2 = [Ev.checkAuth] ∨
    (ensureAmazonClient env s).2.2 = [Ev.findOrCreateAlbum env.albumName] ∨
    (ensureAmazonClient env s).2.2 = [Ev.checkAuth, Ev.findOrCreateAlbum env.albumName] := by
  unfold ensureAmazonClient
  by_cases hi : s.amazonInit = true <;> by_cases ha : env.authOk = true <;>
    simp only [hi, ha, if_true, if_false] <;>
    cases s.albumId <;> simp

theorem ensure_events (env : Env) (s : EngineState) :
    ∀ ev ∈ (ensureAmazonClient env s).2.2,
      ev.isGetPhotos = false ∧ ev.isRemoval = false ∧ ev.isUpload = false := by
  intro ev hev
  rcases ensure_events_list env s with h | h | h | h <;> rw [h] at hev <;>
    simp only [List.mem_cons, List.mem_singleton, List.not_mem_nil, or_false] at hev
  · subst hev; exact ⟨rfl, rfl, rfl⟩
  · subst hev; exact ⟨rfl, rfl, rfl⟩
  · rcases hev with rfl | rfl <;> exact ⟨rfl, rfl, rfl⟩

theorem ensure_albumId (env : Env) (s : EngineState) (ha : env.authOk = true) :
    ∃ a, (ensureAmazonClient env s).2.1.albumId = some a := by
  unfold ensureAmazonClient
  by_cases hi : s.amazonInit = true <;>
    simp only [hi, ha, if_true, if_false] <;>
    cases hA : s.albumId <;> simp [hA]

/-- A single SQL transaction deleting each id of a batch equals one
filter on the id column. -/
theorem foldl_removeMapping :
    ∀ (maps : List PhotoMapping) (db : List PhotoMapping),
      maps.foldl (fun d m => removeMapping d m.icloudId) db =
        db.filter (fun r => !decide (r.icloudId ∈ maps.map (·.icloudId)))
  | [], db => by simp
  | m :: rest, db => by
    rw [List.foldl_cons, foldl_removeMapping rest (removeMapping db m.icloudId)]
    unfold removeMapping
    rw [List.filter_filter]
    congr 1
    funext r
    by_cases h1 : r.icloudId = m.icloudId <;>
      by_cases h2 : r.icloudId ∈ rest.map (·.icloudId) <;>
      simp [h1, h2]

theorem removePhotos_fail (env : Env) (s : EngineState) (maps : List PhotoMapping)
    (h : env.removeBatchOk = false) :
    (removePhotos env s maps).1 = s := by
  unfold removePhotos
  rw [if_neg (by simp [h])]

theorem removePhotos_ok_db (env : Env) (s : EngineState) (maps : List PhotoMapping)
    (h : env.removeBatchOk = true) :
    (removePhotos env s maps).1 =
      { s with
          db := s.db.filter (fun r => !decide (r.icloudId ∈ maps.map (·.icloudId))) } := by
  unfold removePhotos
  rw [if_pos h, foldl_removeMapping]

theorem removePhotos_frame (env : Env) (s : EngineState) (maps : List PhotoMapping) :
    (removePhotos env s maps).1.isRunning = s.isRunning ∧
    (removePhotos env s maps).1.metrics = s.metrics ∧
    (removePhotos env s maps).1.time = s.time ∧
    (removePhotos env s maps).1.albumId = s.albumId := by
  unfold removePhotos
  by_cases h : env.removeBatchOk = true <;> simp [h]

theorem removePhotos_events_list (env : Env) (s : EngineState) (maps : List PhotoMapping) :
    (removePhotos env s maps).2 = [] ∨
    (removePhotos env s maps).2 =
      [Ev.trash (maps.map (·.amazonId)), Ev.purge (maps.map (·.amazonId))] ∨
    (∃ a, (removePhotos env s maps).2 = [Ev.removeFromAlbum a (maps.map (·.amazonId))]) ∨
    (∃ a, (removePhotos env s maps).2 =
      [Ev.removeFromAlbum a (maps.map (·.amazonId)), Ev.trash (maps.map (·.amazonId)),
        Ev.purge (maps.map (·.amazonId))]) := by
  unfold removePhotos
  by_cases h : env.removeBatchOk = true <;> cases hA : s.albumId <;> simp [h, hA]

theorem removePhotos_events (env : Env) (s : EngineState) (maps : List PhotoMapping) :
    ∀ ev ∈ (removePhotos env s maps).2,
      ev.isGetPhotos = false ∧ ev.isCheckAuth = false ∧ ev.isUpload = false := by
  intro ev hev
  rcases removePhotos_events_list env s maps with h | h | ⟨a, h⟩ | ⟨a, h⟩ <;>
    rw [h] at hev <;>
    simp only [List.mem_cons, List.mem_singleton, List.not_mem_nil, or_false] at hev
  · rcases hev with rfl | rfl <;> exact ⟨rfl, rfl, rfl⟩
  · subst hev; exact ⟨rfl, rfl, rfl⟩
  · rcases hev with rfl | rfl | rfl <;> exact ⟨rfl, rfl, rfl⟩

theorem removePhotos_ok_events (env : Env) (s : EngineState) (maps : List PhotoMapping)
    (h : env.removeBatchOk = true) (a : String) (hA : s.albumId = some a) :
    (removePhotos env s maps).2 =
      [Ev.removeFromAlbum a (maps.map (·.amazonId)), Ev.trash (maps.map (·.amazonId)),
        Ev.purge (maps.map (·.amazonId))] := by
  unfold removePhotos
  simp [h, hA]

theorem maybeEnsure_frame (env : Env) (s : EngineState) :
    (maybeEnsure env s).2.1.db = s.db ∧
    (maybeEnsure env s).2.1.isRunning = s.isRunning ∧
    (maybeEnsure env s).2.1.nextNodeId = s.nextNodeId ∧
    (maybeEnsure env s).2.1.time = s.time ∧
    (maybeEnsure env s).2.1.metrics.lastSync = s.metrics.lastSync ∧
    (maybeEnsure env s).2.1.metrics.totalSyncs = s.metrics.totalSyncs ∧
    (maybeEnsure env s).2.1.metrics.totalErrors = s.metrics.totalErrors := by
  unfold maybeEnsure
  by_cases hN : needsAmazonOf env s.db = true
  · rw [if_pos hN]
    exact ensure_frame env s
  · rw [if_neg hN]
    exact ⟨rfl, rfl, rfl, rfl, rfl, rfl, rfl⟩

theorem maybeEnsure_outcome (env : Env) (s : EngineState) :
    (maybeEnsure env s).1 =
      (if (needsAmazonOf env s.db && !s.amazonInit && !env.authOk) = true
       then Except.error authErrorMsg else Except.ok ()) := by
  unfold maybeEnsure
  by_cases hN : needsAmazonOf env s.db = true
  · rw [if_pos hN, ensure_outcome env s]
    simp [hN]
  · rw [if_neg hN]
    have : needsAmazonOf env s.db = false := by simpa using hN
    simp [this]

theorem maybeEnsure_checkAuth (env : Env) (s : EngineState) :
    countEv Ev.isCheckAuth (maybeEnsure env s).2.2 =
      (if (needsAmazonOf env s.db && !s.amazonInit) = true then 1 else 0) := by
  unfold maybeEnsure
  by_cases hN : needsAmazonOf env s.db = true
  · rw [if_pos hN, ensure_checkAuth_count env s]
    by_cases hi : s.amazonInit = true <;> simp [hi, hN]
  · rw [if_neg hN]
    have : needsAmazonOf env s.db = false := by simpa using hN
    simp [this, countEv]

theorem maybeEnsure_flag (env : Env) (s : EngineState) :
    (maybeEnsure env s).2.1.metrics.amazonAuthenticated =
      (s.metrics.amazonAuthenticated ||
        (needsAmazonOf env s.db && !s.amazonInit && env.authOk)) := by
  unfold maybeEnsure
  by_cases hN : needsAmazonOf env s.db = true
  · rw [if_pos hN, ensure_auth_flag env s]
    simp [hN]
  · rw [if_neg hN]
    have : needsAmazonOf env s.db = false := by simpa using hN
    simp [this]

theorem maybeEnsure_events (env : Env) (s : EngineState) :
    ∀ ev ∈ (maybeEnsure env s).2.2,
      ev.isGetPhotos = false ∧ ev.isRemoval = false ∧ ev.isUpload = false := by
  unfold maybeEnsure
  by_cases hN : needsAmazonOf env s.db = true
  · rw [if_pos hN]
    exact ensure_events env s
  · rw [if_neg hN]
    intro ev hev
    simp at hev

theorem maybeEnsure_albumId (env : Env) (s : EngineState)
    (ha : env.authOk = true) (hN : needsAmazonOf env s.db = true) :
    ∃ a, (maybeEnsure env s).2.1.albumId = some a := by
  unfold maybeEnsure
  rw [if_pos hN]
  exact ensure_albumId env s ha

theorem maybeRemove_frame (env : Env) (s2 : EngineState) (tr : List PhotoMapping) :
    (maybeRemove env s2 tr).1.isRunning = s2.isRunning ∧
    (maybeRemove env s2 tr).1.metrics = s2.metrics ∧
    (maybeRemove env s2 tr).1.time = s2.time ∧
    (maybeRemove env s2 tr).1.albumId = s2.albumId := by
  unfold maybeRemove
  by_cases h1 : 0 < tr.length
  · rw [if_pos h1]
    by_cases h2 : env.syncDeletions = true
    · rw [if_pos h2]
      exact removePhotos_frame env s2 tr
    · rw [if_neg h2]
      exact ⟨rfl, rfl, rfl, rfl⟩
  · rw [if_neg h1]
    exact ⟨rfl, rfl, rfl, rfl⟩

theorem maybeRemove_events (env : Env) (s2 : EngineState) (tr : List PhotoMapping) :
    ∀ ev ∈ (maybeRemove env s2 tr).2.1,
      ev.isGetPhotos = false ∧ ev.isCheckAuth = false ∧ ev.isUpload = false := by
  unfold maybeRemove
  by_cases h1 : 0 < tr.length
  · rw [if_pos h1]
    by_cases h2 : env.syncDeletions = true
    · rw [if_pos h2]
      exact removePhotos_events env s2 tr
    · rw [if_neg h2]
      intro ev hev
      simp at hev
  · rw [if_neg h1]
    intro ev hev
    simp at hev

theorem maybeRemove_removed (env : Env) (s2 : EngineState) (tr : List PhotoMapping) :
    (maybeRemove env s2 tr).2.2 =
      (if 0 < tr.length ∧ env.syncDeletions = true then tr.length else 0) := by
  unfold maybeRemove
  by_cases h1 : 0 < tr.length <;> by_cases h2 : env.syncDeletions = true <;>
    simp [h1, h2]

theorem maybeRemove_db_off (env : Env) (s2 : EngineState) (tr : List PhotoMapping)
    (hsd : env.syncDeletions = false) :
    (maybeRemove env s2 tr).1 = s2 := by
  unfold maybeRemove
  by_cases h1 : 0 < tr.length <;> simp [h1, hsd]

/-- Exhaustive decomposition of one cycle body into its three outcome
shapes: listing fetch failed, lazy initialization failed, or the cycle
ran through additions and removals. -/
theorem runBody_cases (env : Env) (s : EngineState) :
    (env.getPhotosOk = false ∧
      runBody env s = (Except.error "getPhotos failed", s, [Ev.getPhotos], 0, 0)) ∨
    (env.getPhotosOk = true ∧ ∃ m s1 e1,
      maybeEnsure env s = (Except.error m, s1, e1) ∧
      runBody env s = (Except.error m, s1, Ev.getPhotos :: e1, 0, 0)) ∨
    (env.getPhotosOk = true ∧ ∃ s1 e1 s2 e2 added s3 e3 removed,
      maybeEnsure env s = (Except.ok (), s1, e1) ∧
      processAdds env (toAddOf env.photos s.db) s1 0 = (s2, e2, added) ∧
      maybeRemove env s2 (toRemoveOf env.photos s.db) = (s3, e3, removed) ∧
      runBody env s =
        (Except.ok (), s3, Ev.getPhotos :: (e1 ++ e2 ++ e3), added, removed)) := by
  by_cases hg : env.getPhotosOk = true
  · rcases h1 : maybeEnsure env s with ⟨r1, s1, e1⟩
    cases r1 with
    | error m =>
      refine Or.inr (Or.inl ⟨hg, m, s1, e1, rfl, ?_⟩)
      simp only [runBody, hg, if_true, h1]
    | ok u =>
      cases u
      rcases h2 : processAdds env (toAddOf env.photos s.db) s1 0 with ⟨s2, e2, added⟩
      rcases h3 : maybeRemove env s2 (toRemoveOf env.photos s.db) with ⟨s3, e3, removed⟩
      refine Or.inr (Or.inr ⟨hg, s1, e1, s2, e2, added, s3, e3, removed, rfl, h2, h3, ?_⟩)
      simp only [runBody, hg, if_true, h1, h2, h3]
  · have hg2 : env.getPhotosOk = false := by simpa using hg
    refine Or.inl ⟨hg2, ?_⟩
    simp only [runBody, hg2, if_false, Bool.false_eq_true]

theorem countEv_eq_zero {p : Ev → Bool} {evs : List Ev}
    (h : ∀ ev ∈ evs, p ev = false) : countEv p evs = 0 := by
  unfold countEv
  rw [List.length_eq_zero, List.filter_eq_nil_iff]
  intro ev hev
  simp [h ev hev]

theorem countEv_append (p : Ev → Bool) (a b : List Ev) :
    countEv p (a ++ b) = countEv p a + countEv p b := by
  simp [countEv, List.filter_append]

theorem countEv_cons (p : Ev → Bool) (e : Ev) (t : List Ev) :
    countEv p (e :: t) = (if p e = true then 1 else 0) + countEv p t := by
  by_cases h : p e = true
  · simp [countEv, List.filter_cons, h]
    omega
  · simp [countEv, List.filter_cons, h]

/-- A `run()` call arriving while a cycle is in flight returns at once:
no state change, no collaborator call, normal return. -/
theorem run_busy (env : Env) (s : EngineState) (h : s.isRunning = true) :
    run env s = ⟨s, [], Except.ok ()⟩ := by
  unfold run
  rw [if_pos h]

/-- A `run()` call on an idle engine executes the body and then writes
the metrics: the success path bumps `totalSyncs`, the failure path bumps
`totalErrors`, and both record a fresh `lastSync` and clear the running
flag. -/
theorem run_idle (env : Env) (s : EngineState) (h : s.isRunning = false) :
    (∃ s2 evs added removed,
      runBody env { s with isRunning := true } = (Except.ok (), s2, evs, added, removed) ∧
      run env s = ⟨{ s2 with
          isRunning := false,
          time := s.time + env.elapsed,
          metrics := { s2.metrics with
            lastSync := some ⟨s.time + env.elapsed, env.elapsed, added, removed,
              true, none⟩,
            totalSyncs := s2.metrics.totalSyncs + 1 } }, evs, Except.ok ()⟩) ∨
    (∃ m s2 evs added removed,
      runBody env { s with isRunning := true } = (Except.error m, s2, evs, added, removed) ∧
      run env s = ⟨{ s2 with
          isRunning := false,
          time := s.time + env.elapsed,
          metrics := { s2.metrics with
            lastSync := some ⟨s.time + env.elapsed, env.elapsed, added, removed,
              false, some m⟩,
            totalErrors := s2.metrics.totalErrors + 1 } }, evs, Except.error m⟩) := by
  unfold run
  rw [if_neg (by simp [h])]
  rcases hB : runBody env { s with isRunning := true } with ⟨r, s2, evs, rest⟩
  rcases rest with ⟨added, removed⟩
  cases r with
  | ok u =>
    cases u
    exact Or.inl ⟨s2, evs, added, removed, rfl, by simp only [hB]⟩
  | error m =>
    exact Or.inr ⟨m, s2, evs, added, removed, rfl, by simp only [hB]⟩

/-- Every cycle body that runs emits exactly one source-listing fetch. -/
theorem runBody_getPhotos_count (env : Env) (s : EngineState) :
    countEv Ev.isGetPhotos (runBody env s).2.2.1 = 1 := by
  rcases runBody_cases env s with ⟨_, hB⟩ | ⟨_, m, s1, e1, hE, hB⟩ |
      ⟨_, s1, e1, s2, e2, added, s3, e3, removed, hE, hP, hR, hB⟩ <;> rw [hB]
  · simp [countEv, Ev.isGetPhotos]
  · rw [countEv_cons]
    have h1 : countEv Ev.isGetPhotos e1 = 0 := by
      apply countEv_eq_zero
      intro ev hev
      have := maybeEnsure_events env s ev (by rw [hE]; exact hev)
      exact this.1
    simp [h1, Ev.isGetPhotos]
  · rw [countEv_cons, countEv_append, countEv_append]
    have h1 : countEv Ev.isGetPhotos e1 = 0 := by
      apply countEv_eq_zero
      intro ev hev
      exact (maybeEnsure_events env s ev (by rw [hE]; exact hev)).1
    have h2 : countEv Ev.isGetPhotos e2 = 0 := by
      apply countEv_eq_zero
      intro ev hev
      exact (processAdds_events env (toAddOf env.photos s.db) s1 0 ev
        (by rw [hP]; exact hev)).1
    have h3 : countEv Ev.isGetPhotos e3 = 0 := by
      apply countEv_eq_zero
      intro ev hev
      exact (maybeRemove_events env s2 (toRemoveOf env.photos s.db) ev
        (by rw [hR]; exact hev)).1
    simp [h1, h2, h3, Ev.isGetPhotos]

/-- The auth check fires in a cycle body exactly when the listing fetch
succeeded, the diff required the Amazon client, and the client was not
yet constructed. -/
theorem runBody_checkAuth_count (env : Env) (s : EngineState) :
    countEv Ev.isCheckAuth (runBody env s).2.2.1 =
      (if (env.getPhotosOk && needsAmazonOf env s.db && !s.amazonInit) = true
       then 1 else 0) := by
  rcases runBody_cases env s with ⟨hg, hB⟩ | ⟨hg, m, s1, e1, hE, hB⟩ |
      ⟨hg, s1, e1, s2, e2, added, s3, e3, removed, hE, hP, hR, hB⟩ <;> rw [hB]
  · simp [hg, countEv, Ev.isCheckAuth]
  · rw [countEv_cons]
    have h1 : countEv Ev.isCheckAuth e1 =
        (if (needsAmazonOf env s.db && !s.amazonInit) = true then 1 else 0) := by
      have := maybeEnsure_checkAuth env s
      rw [hE] at this
      exact this
    simp only [h1, hg, Ev.isCheckAuth, Bool.true_and]
    simp [countEv]
  · rw [countEv_cons, countEv_append, countEv_append]
    have h1 : countEv Ev.isCheckAuth e1 =
        (if (needsAmazonOf env s.db && !s.amazonInit) = true then 1 else 0) := by
      have := maybeEnsure_checkAuth env s
      rw [hE] at this
      exact this
    have h2 : countEv Ev.isCheckAuth e2 = 0 := by
      apply countEv_eq_zero
      intro ev hev
      exact (processAdds_events env (toAddOf env.photos s.db) s1 0 ev
        (by rw [hP]; exact hev)).2.1
    have h3 : countEv Ev.isCheckAuth e3 = 0 := by
      apply countEv_eq_zero
      intro ev hev
      exact (maybeRemove_events env s2 (toRemoveOf env.photos s.db) ev
        (by rw [hR]; exact hev)).2.1
    simp [h1, h2, h3, hg, Ev.isCheckAuth]

/-- How `metrics.amazonAuthenticated` evolves over one cycle body. -/
theorem runBody_flag (env : Env) (s : EngineState) :
    (runBody env s).2.1.metrics.amazonAuthenticated =
      (s.metrics.amazonAuthenticated ||
        (env.getPhotosOk && needsAmazonOf env s.db && !s.amazonInit && env.authOk)) := by
  rcases runBody_cases env s with ⟨hg, hB⟩ | ⟨hg, m, s1, e1, hE, hB⟩ |
      ⟨hg, s1, e1, s2, e2, added, s3, e3, removed, hE, hP, hR, hB⟩ <;> rw [hB]
  · simp [hg]
  · have h1 := maybeEnsure_flag env s
    rw [hE] at h1
    simp only [hg, Bool.true_and]
    have hassoc : (needsAmazonOf env s.db && !s.amazonInit && env.authOk) =
        (needsAmazonOf env s.db && (!s.amazonInit && env.authOk)) := by
      cases needsAmazonOf env s.db <;> cases s.amazonInit <;> cases env.authOk <;> rfl
    rw [← h1]
  · have h1 := maybeEnsure_flag env s
    rw [hE] at h1
    have h2 := (processAdds_frame env (toAddOf env.photos s.db) s1 0).2.2.2.1
    rw [hP] at h2
    have h3 := (maybeRemove_frame env s2 (toRemoveOf env.photos s.db)).2.1
    rw [hR] at h3
    simp only [hg, Bool.true_and]
    rw [show s3.metrics = s2.metrics from h3, show s2.metrics = s1.metrics from h2, h1]

/-- The cycle body never touches the run counters, the last-sync record,
the running flag or the clock. -/
theorem runBody_counters (env : Env) (s : EngineState) :
    (runBody env s).2.1.metrics.totalSyncs = s.metrics.totalSyncs ∧
    (runBody env s).2.1.metrics.totalErrors = s.metrics.totalErrors ∧
    (runBody env s).2.1.metrics.lastSync = s.metrics.lastSync := by
  rcases runBody_cases env s with ⟨hg, hB⟩ | ⟨hg, m, s1, e1, hE, hB⟩ |
      ⟨hg, s1, e1, s2, e2, added, s3, e3, removed, hE, hP, hR, hB⟩ <;> rw [hB]
  · exact ⟨rfl, rfl, rfl⟩
  · have h1 := maybeEnsure_frame env s
    rw [hE] at h1
    exact ⟨h1.2.2.2.2.2.1, h1.2.2.2.2.2.2, h1.2.2.2.2.1⟩
  · have h1 := maybeEnsure_frame env s
    rw [hE] at h1
    have h2 := (processAdds_frame env (toAddOf env.photos s.db) s1 0).2.2.2.1
    rw [hP] at h2
    have h3 := (maybeRemove_frame env s2 (toRemoveOf env.photos s.db)).2.1
    rw [hR] at h3
    rw [show s3.metrics = s2.metrics from h3, show s2.metrics = s1.metrics from h2]
    exact ⟨h1.2.2.2.2.2.1, h1.2.2.2.2.2.2, h1.2.2.2.2.1⟩

/-- Composing the guard with a cycle body that succeeded. -/
theorem run_of_ok (env : Env) (s : EngineState) (h : s.isRunning = false)
    {s2 : EngineState} {evs : List Ev} {added removed : Nat}
    (hB : runBody env { s with isRunning := true } =
      (Except.ok (), s2, evs, added, removed)) :
    run env s = ⟨{ s2 with
        isRunning := false,
        time := s.time + env.elapsed,
        metrics := { s2.metrics with
          lastSync := some ⟨s.time + env.elapsed, env.elapsed, added, removed,
            true, none⟩,
          totalSyncs := s2.metrics.totalSyncs + 1 } }, evs, Except.ok ()⟩ := by
  unfold run
  rw [if_neg (by simp [h])]
  simp only [hB]

/-- Composing the guard with a cycle body that threw. -/
theorem run_of_error (env : Env) (s : EngineState) (h : s.isRunning = false)
    {m : String} {s2 : EngineState} {evs : List Ev} {added removed : Nat}
    (hB : runBody env { s with isRunning := true } =
      (Except.error m, s2, evs, added, removed)) :
    run env s = ⟨{ s2 with
        isRunning := false,
        time := s.time + env.elapsed,
        metrics := { s2.metrics with
          lastSync := some ⟨s.time + env.elapsed, env.elapsed, added, removed,
            false, some m⟩,
          totalErrors := s2.metrics.totalErrors + 1 } }, evs, Except.error m⟩ := by
  unfold run
  rw [if_neg (by simp [h])]
  simp only [hB]

theorem toAdd_ids_subset (photos : List ICloudPhoto) (db : List PhotoMapping) :
    ∀ x ∈ (toAddOf photos db).map (·.id), x ∈ photos.map (·.id) := by
  intro x hx
  simp only [toAddOf, List.mem_map] at hx ⊢
  rcases hx with ⟨p, hp, rfl⟩
  exact ⟨p, List.mem_of_mem_filter hp, rfl⟩

theorem toRemove_id_not_listed {photos : List ICloudPhoto} {db : List PhotoMapping}
    {m : PhotoMapping} (hm : m ∈ toRemoveOf photos db) :
    m.icloudId ∉ photos.map (·.id) := by
  simp only [toRemoveOf, List.mem_filter, Bool.not_eq_true', decide_eq_false_iff_not] at hm
  exact hm.2

theorem toRemove_mem_db {photos : List ICloudPhoto} {db : List PhotoMapping}
    {m : PhotoMapping} (hm : m ∈ toRemoveOf photos db) : m ∈ db :=
  List.mem_of_mem_filter hm

theorem maybeRemove_events_off (env : Env) (s2 : EngineState) (tr : List PhotoMapping)
    (hsd : env.syncDeletions = false) :
    (maybeRemove env s2 tr).2.1 = [] := by
  unfold maybeRemove
  by_cases h1 : 0 < tr.length <;> simp [h1, hsd]

/-- A cycle with nothing to add and nothing to remove only fetches the
listing: no Amazon call, no store change, successful outcome. -/
theorem runBody_noop (env : Env) (s : EngineState) (hgp : env.getPhotosOk = true)
    (hA : toAddOf env.photos s.db = []) (hR : toRemoveOf env.photos s.db = []) :
    runBody env s = (Except.ok (), s, [Ev.getPhotos], 0, 0) := by
  have hN : needsAmazonOf env s.db = false := by
    simp [needsAmazonOf, hA, hR]
  unfold runBody
  rw [if_pos hgp]
  unfold maybeEnsure
  rw [if_neg (by simp [hN])]
  rw [hA, hR]
  simp [processAdds, maybeRemove]

theorem filter_length_split (db : List PhotoMapping) (i : String) (rest : List String) :
    (db.filter (fun r => decide (r.icloudId = i))).length +
      (db.filter (fun r => decide (r.icloudId ∈ rest) && !decide (r.icloudId = i))).length =
    (db.filter (fun r => decide (r.icloudId ∈ i :: rest))).length := by
  induction db with
  | nil => simp
  | cons r t ih =>
    rw [List.filter_cons, List.filter_cons, List.filter_cons]
    by_cases h1 : r.icloudId = i <;> by_cases h2 : r.icloudId ∈ rest
    · rw [if_pos (by simp [h1]), if_neg (by simp [h1]),
        if_pos (by simp [List.mem_cons, h1])]
      simp only [List.length_cons]
      omega
    · rw [if_pos (by simp [h1]), if_neg (by simp [h2]),
        if_pos (by simp [List.mem_cons, h1])]
      simp only [List.length_cons]
      omega
    · rw [if_neg (by simp [h1]), if_pos (by simp [h1, h2]),
        if_pos (by simp [List.mem_cons, h2])]
      simp only [List.length_cons]
      omega
    · rw [if_neg (by simp [h1]), if_neg (by simp [h2]),
        if_neg (by simp [List.mem_cons, h1, h2])]
      omega

theorem removeMappings_loop :
    ∀ (ids : List String) (db : List PhotoMapping) (k : Nat),
      ids.foldl
        (fun acc id =>
          (acc.1.filter (fun r => !decide (r.icloudId = id)),
           acc.2 + (acc.1.filter (fun r => decide (r.icloudId = id))).length))
        (db, k) =
      (db.filter (fun r => !decide (r.icloudId ∈ ids)),
       k + (db.filter (fun r => decide (r.icloudId ∈ ids))).length)
  | [], db, k => by simp
  | i :: rest, db, k => by
    rw [List.foldl_cons, removeMappings_loop rest _ _]
    refine Prod.ext ?_ ?_
    · show ((db.filter (fun r => !decide (r.icloudId = i))).filter
        (fun r => !decide (r.icloudId ∈ rest))) = _
      rw [List.filter_filter]
      congr 1
      funext r
      by_cases h1 : r.icloudId = i <;> by_cases h2 : r.icloudId ∈ rest <;>
        simp [h1, h2, List.mem_cons]
    · show k + (db.filter (fun r => decide (r.icloudId = i))).length +
        ((db.filter (fun r => !decide (r.icloudId = i))).filter
          (fun r => decide (r.icloudId ∈ rest))).length = _
      rw [List.filter_filter]
      have := filter_length_split db i rest
      omega

/-- Claim C9 (confirmed).  `removeMappings` removes exactly the rows whose
`icloudId` is listed, in one transaction, and returns the number of rows
actually deleted; listed ids with no matching row contribute nothing and
raise no error.  The second conjunct is the spec's own worked example. -/
theorem removeMappings_spec :
    (∀ (db : List PhotoMapping) (ids : List String),
      (removeMappings db ids).1 = db.filter (fun r => !decide (r.icloudId ∈ ids)) ∧
      (removeMappings db ids).2 =
        (db.filter (fun r => decide (r.icloudId ∈ ids))).length) ∧
    removeMappings [⟨"exists-1", "c1", "a1", 0⟩] ["exists-1", "missing-99"] = ([], 1) := by
  constructor
  · intro db ids
    unfold removeMappings
    rw [removeMappings_loop ids db 0]
    exact ⟨rfl, by simp⟩
  · decide

/-- Claim C3 (confirmed).  Single-flight: a `run()` call on an engine
whose cycle is still in flight returns at once with no collaborator call
and no state change (in particular the listing is not fetched), while a
call on an idle engine fetches the listing exactly once and always ends
with the running flag cleared, on the success and the failure path
alike. -/
theorem single_flight (env : Env) (s : EngineState) :
    (s.isRunning = true → run env s = ⟨s, [], Except.ok ()⟩) ∧
    (s.isRunning = false →
      (run env s).state.isRunning = false ∧
      countEv Ev.isGetPhotos (run env s).events = 1) := by
  constructor
  · intro h
    exact run_busy env s h
  · intro h
    have hc := runBody_getPhotos_count env { s with isRunning := true }
    rcases run_idle env s h with ⟨s2, evs, added, removed, hB, hrun⟩ |
        ⟨m, s2, evs, added, removed, hB, hrun⟩ <;>
      rw [hB] at hc <;> rw [hrun] <;> exact ⟨rfl, hc⟩

/-- Witness for C3: a concrete busy trigger is dropped unchanged, and a
concrete idle trigger fetches the listing once and ends idle. -/
theorem single_flight_witness :
    (run (allOkEnv []) { EngineState.initial with isRunning := true } =
      ⟨{ EngineState.initial with isRunning := true }, [], Except.ok ()⟩) ∧
    ((run (allOkEnv []) EngineState.initial).state.isRunning = false ∧
      countEv Ev.isGetPhotos (run (allOkEnv []) EngineState.initial).events = 1) :=
  ⟨(single_flight (allOkEnv []) { EngineState.initial with isRunning := true }).1 rfl,
   (single_flight (allOkEnv []) EngineState.initial).2 rfl⟩

/-- Claim C10 (confirmed).  Every `run()` call that passes the
single-flight guard bumps exactly one of the two counters — `totalSyncs`
on a cycle that completed, `totalErrors` on a cycle that threw — while a
dropped call returns normally and leaves the whole metrics structure
untouched. -/
theorem run_counter_invariant (env : Env) (s : EngineState) :
    (s.isRunning = true →
      (run env s).state.metrics = s.metrics ∧
      (run env s).outcome = Except.ok ()) ∧
    (s.isRunning = false →
      ((run env s).outcome = Except.ok () →
        (run env s).state.metrics.totalSyncs = s.metrics.totalSyncs + 1 ∧
        (run env s).state.metrics.totalErrors = s.metrics.totalErrors) ∧
      (∀ m, (run env s).outcome = Except.error m →
        (run env s).state.metrics.totalErrors = s.metrics.totalErrors + 1 ∧
        (run env s).state.metrics.totalSyncs = s.metrics.totalSyncs)) := by
  constructor
  · intro h
    rw [run_busy env s h]
    exact ⟨rfl, rfl⟩
  · intro h
    have hc := runBody_counters env { s with isRunning := true }
    rcases run_idle env s h with ⟨s2, evs, added, removed, hB, hrun⟩ |
        ⟨m, s2, evs, added, removed, hB, hrun⟩ <;> rw [hB] at hc <;> rw [hrun]
    · constructor
      · intro _
        exact ⟨by rw [show s2.metrics.totalSyncs = s.metrics.totalSyncs from hc.1],
          hc.2.1⟩
      · intro m hm
        exact absurd hm (by simp)
    · constructor
      · intro hm
        exact absurd hm (by simp)
      · intro m2 hm
        exact ⟨by rw [show s2.metrics.totalErrors = s.metrics.totalErrors from hc.2.1],
          hc.1⟩

/-- Witness for C10: a dropped call leaves metrics unchanged, and a
concrete completed cycle bumps `totalSyncs` once. -/
theorem run_counter_invariant_witness :
    ((run (allOkEnv []) { EngineState.initial with isRunning := true }).state.metrics =
        ({ EngineState.initial with isRunning := true } : EngineState).metrics ∧
      (run (allOkEnv []) { EngineState.initial with isRunning := true }).outcome =
        Except.ok ()) ∧
    ((run (allOkEnv []) EngineState.initial).state.metrics.totalSyncs =
        EngineState.initial.metrics.totalSyncs + 1 ∧
      (run (allOkEnv []) EngineState.initial).state.metrics.totalErrors =
        EngineState.initial.metrics.totalErrors) :=
  ⟨(run_counter_invariant (allOkEnv []) { EngineState.initial with isRunning := true }).1 rfl,
   ((run_counter_invariant (allOkEnv []) EngineState.initial).2 rfl).1 rfl⟩

theorem runBody_append_only (env : Env) (s : EngineState)
    (hsd : env.syncDeletions = false) :
    (∀ m ∈ toRemoveOf env.photos s.db, m ∈ (runBody env s).2.1.db) ∧
    countEv Ev.isRemoval (runBody env s).2.2.1 = 0 := by
  rcases runBody_cases env s with ⟨hg, hB⟩ | ⟨hg, m, s1, e1, hE, hB⟩ |
      ⟨hg, s1, e1, s2, e2, added, s3, e3, removed, hE, hP, hR, hB⟩ <;>
    rw [hB] <;> dsimp only
  · exact ⟨fun m hm => toRemove_mem_db hm, by simp [countEv, Ev.isRemoval]⟩
  · have hdb : s1.db = s.db := by
      have h := (maybeEnsure_frame env s).1
      rw [hE] at h
      exact h
    constructor
    · intro mm hm
      rw [hdb]
      exact toRemove_mem_db hm
    · rw [countEv_cons]
      have h1 : countEv Ev.isRemoval e1 = 0 := countEv_eq_zero
        (fun ev hev => (maybeEnsure_events env s ev (by rw [hE]; exact hev)).2.1)
      simp [h1, Ev.isRemoval]
  · have hdb : s1.db = s.db := by
      have h := (maybeEnsure_frame env s).1
      rw [hE] at h
      exact h
    have hoff : s3 = s2 := by
      have h := maybeRemove_db_off env s2 (toRemoveOf env.photos s.db) hsd
      rw [hR] at h
      exact h
    constructor
    · intro mm hm
      rw [hoff]
      have h := processAdds_preserves env (toAddOf env.photos s.db) s1 0 mm
        (by rw [hdb]; exact toRemove_mem_db hm)
        (fun hx => toRemove_id_not_listed hm (toAdd_ids_subset env.photos s.db _ hx))
      rw [hP] at h
      exact h
    · have he3 : e3 = [] := by
        have h := maybeRemove_events_off env s2 (toRemoveOf env.photos s.db) hsd
        rw [hR] at h
        exact h
      rw [countEv_cons, countEv_append, countEv_append, he3]
      have h1 : countEv Ev.isRemoval e1 = 0 := countEv_eq_zero
        (fun ev hev => (maybeEnsure_events env s ev (by rw [hE]; exact hev)).2.1)
      have h2 : countEv Ev.isRemoval e2 = 0 := countEv_eq_zero
        (fun ev hev => (processAdds_events env (toAddOf env.photos s.db) s1 0 ev
          (by rw [hP]; exact hev)).2.2)
      rw [h1, h2, show countEv Ev.isRemoval ([] : List Ev) = 0 from rfl,
        show Ev.isRemoval Ev.getPhotos = false from rfl]
      simp

/-- Claim C6 (confirmed).  With deletion sync off (append-only), every
row the diff put in `toRemove` is still in the store after the cycle and
the Amazon client receives no detach, trash or purge call. -/
theorem append_only_preserves (env : Env) (s : EngineState)
    (hsd : env.syncDeletions = false) :
    (∀ m ∈ toRemoveOf env.photos s.db, m ∈ (run env s).state.db) ∧
    countEv Ev.isRemoval (run env s).events = 0 := by
  by_cases hr : s.isRunning = true
  · rw [run_busy env s hr]
    exact ⟨fun m hm => toRemove_mem_db hm, by simp [countEv]⟩
  · have hr2 : s.isRunning = false := by simpa using hr
    have hmain := runBody_append_only env { s with isRunning := true } hsd
    rcases run_idle env s hr2 with ⟨s2, evs, added, removed, hB, hrun⟩ |
        ⟨m, s2, evs, added, removed, hB, hrun⟩ <;>
      rw [hB] at hmain <;> rw [hrun] <;> exact ⟨hmain.1, hmain.2⟩

/-- Witness for C6: a store row absent from the listing survives an
append-only cycle, with zero removal calls. -/
theorem append_only_preserves_witness :
    (⟨"p1", "h1", "az1", 0⟩ : PhotoMapping) ∈
      (run { allOkEnv [] with syncDeletions := false }
        { EngineState.initial with db := [⟨"p1", "h1", "az1", 0⟩] }).state.db ∧
    countEv Ev.isRemoval (run { allOkEnv [] with syncDeletions := false }
      { EngineState.initial with db := [⟨"p1", "h1", "az1", 0⟩] }).events = 0 :=
  ⟨(append_only_preserves { allOkEnv [] with syncDeletions := false }
      { EngineState.initial with db := [⟨"p1", "h1", "az1", 0⟩] } rfl).1
      ⟨"p1", "h1", "az1", 0⟩ (by decide),
   (append_only_preserves { allOkEnv [] with syncDeletions := false }
      { EngineState.initial with db := [⟨"p1", "h1", "az1", 0⟩] } rfl).2⟩

/-- Counterexample to claim C7: a completed no-op cycle performs no
auth check at all and leaves `amazonAuthenticated` at `false`, so the
auth-check is not run once per cycle and the metric is not refreshed on
no-op cycles. -/
theorem auth_refresh_cex :
    countEv Ev.isCheckAuth (run (allOkEnv []) EngineState.initial).events = 0 ∧
    (run (allOkEnv []) EngineState.initial).state.metrics.amazonAuthenticated = false ∧
    (run (allOkEnv []) EngineState.initial).outcome = Except.ok () :=
  ⟨by decide, by decide, rfl⟩

/-- Claim C7 (corrected).  The auth check runs exactly once on the first
non-dropped cycle that both fetched the listing and needed the Amazon
client while the client was not yet constructed — at most once per
process lifetime, not once per cycle — and `amazonAuthenticated` is only
ever raised to `true` by that check succeeding; every other cycle,
no-op cycles included, leaves the metric unchanged. -/
theorem auth_check_lazy (env : Env) (s : EngineState) :
    countEv Ev.isCheckAuth (run env s).events =
      (if (!s.isRunning && env.getPhotosOk && needsAmazonOf env s.db &&
            !s.amazonInit) = true
       then 1 else 0) ∧
    (run env s).state.metrics.amazonAuthenticated =
      (s.metrics.amazonAuthenticated ||
        (!s.isRunning && env.getPhotosOk && needsAmazonOf env s.db &&
          !s.amazonInit && env.authOk)) := by
  by_cases hr : s.isRunning = true
  · rw [run_busy env s hr]
    simp [countEv, hr]
  · have hr2 : s.isRunning = false := by simpa using hr
    rcases run_idle env s hr2 with ⟨s2, evs, added, removed, hB, hrun⟩ |
        ⟨m, s2, evs, added, removed, hB, hrun⟩ <;> rw [hrun] <;> constructor
    · have hc := runBody_checkAuth_count env { s with isRunning := true }
      rw [hB] at hc
      refine Eq.trans hc ?_
      simp [hr2]
    · have hf := runBody_flag env { s with isRunning := true }
      rw [hB] at hf
      refine Eq.trans hf ?_
      simp [hr2]
    · have hc := runBody_checkAuth_count env { s with isRunning := true }
      rw [hB] at hc
      refine Eq.trans hc ?_
      simp [hr2]
    · have hf := runBody_flag env { s with isRunning := true }
      rw [hB] at hf
      refine Eq.trans hf ?_
      simp [hr2]

/-- Counterexample to claim C8: with a store row to remove, deletions on
and the Amazon batch call failing, the cycle still records
`photosRemoved = 1` although no store row was deleted (the claim expects
0), and records the completion timestamp rather than the start
timestamp. -/
theorem last_sync_cex :
    (run { allOkEnv [] with removeBatchOk := false, elapsed := 5 }
        { EngineState.initial with db := [⟨"p1", "h1", "az1", 0⟩] }).state.metrics.lastSync =
      some ⟨5, 5, 0, 1, true, none⟩ ∧
    (run { allOkEnv [] with removeBatchOk := false, elapsed := 5 }
        { EngineState.initial with db := [⟨"p1", "h1", "az1", 0⟩] }).state.db =
      [⟨"p1", "h1", "az1", 0⟩] :=
  ⟨by decide, by decide⟩

/-- Claim C8 (corrected).  Every non-dropped cycle overwrites `lastSync`
wholesale: the timestamp is taken at completion (start plus duration),
`durationMs` is the wall-clock duration, `success` is false exactly when
the cycle-level path threw (an `error` message is recorded exactly
then), `photosAdded` counts the per-item successes (at most the size of
`toAdd`, equal to it when every download and upload succeeds), and
`photosRemoved` is the full size of the `toRemove` batch whenever
deletions are enabled and attempted — even when the batch call failed
and no row was deleted — and 0 otherwise. -/
theorem last_sync_postcondition (env : Env) (s : EngineState)
    (h : s.isRunning = false) :
    ∃ ls, (run env s).state.metrics.lastSync = some ls ∧
      ls.timestamp = s.time + env.elapsed ∧
      ls.durationMs = env.elapsed ∧
      (ls.success = true ↔ (run env s).outcome = Except.ok ()) ∧
      (ls.error = none ↔ ls.success = true) ∧
      (ls.success = true →
        ls.photosRemoved =
          (if 0 < (toRemoveOf env.photos s.db).length ∧ env.syncDeletions = true
           then (toRemoveOf env.photos s.db).length else 0)) ∧
      (ls.success = false → ls.photosAdded = 0 ∧ ls.photosRemoved = 0) ∧
      ls.photosAdded ≤ (toAddOf env.photos s.db).length ∧
      ((∀ i, env.downloadOk i = true) → (∀ i, env.uploadOk i = true) →
        ls.success = true → ls.photosAdded = (toAddOf env.photos s.db).length) := by
  rcases runBody_cases env { s with isRunning := true } with ⟨hg, hB⟩ |
      ⟨hg, m, s1, e1, hE, hB⟩ |
      ⟨hg, s1, e1, s2, e2, added, s3, e3, removed, hE, hP, hR, hB⟩
  · rw [run_of_error env s h hB]
    refine ⟨_, rfl, rfl, rfl, by simp, by simp, ?_, fun _ => ⟨rfl, rfl⟩,
      Nat.zero_le _, ?_⟩
    · intro habs
      exact absurd habs (by simp)
    · intro _ _ habs
      exact absurd habs (by simp)
  · rw [run_of_error env s h hB]
    refine ⟨_, rfl, rfl, rfl, by simp, by simp, ?_, fun _ => ⟨rfl, rfl⟩,
      Nat.zero_le _, ?_⟩
    · intro habs
      exact absurd habs (by simp)
    · intro _ _ habs
      exact absurd habs (by simp)
  · rw [run_of_ok env s h hB]
    have hrem : removed =
        (if 0 < (toRemoveOf env.photos s.db).length ∧ env.syncDeletions = true
         then (toRemoveOf env.photos s.db).length else 0) := by
      have hm := maybeRemove_removed env s2 (toRemoveOf env.photos s.db)
      rw [hR] at hm
      exact hm
    have hle : added ≤ (toAddOf env.photos s.db).length := by
      have hl := processAdds_added_le env (toAddOf env.photos s.db) s1 0
      rw [hP] at hl
      simpa using hl
    refine ⟨_, rfl, rfl, rfl, by simp, by simp, fun _ => hrem, ?_, hle, ?_⟩
    · intro habs
      exact absurd habs (by simp)
    · intro hd hu _
      have hl := processAdds_added_allok env hd hu (toAddOf env.photos s.db) s1 0
      rw [hP] at hl
      simpa using hl

/-- Witness for C8 as corrected: a concrete completed cycle whose
`lastSync` satisfies the postcondition. -/
theorem last_sync_postcondition_witness :
    ∃ ls, (run (allOkEnv []) EngineState.initial).state.metrics.lastSync = some ls ∧
      ls.timestamp = EngineState.initial.time + (allOkEnv []).elapsed ∧
      ls.durationMs = (allOkEnv []).elapsed ∧
      (ls.success = true ↔ (run (allOkEnv []) EngineState.initial).outcome = Except.ok ()) ∧
      (ls.error = none ↔ ls.success = true) ∧
      (ls.success = true →
        ls.photosRemoved =
          (if 0 < (toRemoveOf (allOkEnv []).photos EngineState.initial.db).length ∧
              (allOkEnv []).syncDeletions = true
           then (toRemoveOf (allOkEnv []).photos EngineState.initial.db).length else 0)) ∧
      (ls.success = false → ls.photosAdded = 0 ∧ ls.photosRemoved = 0) ∧
      ls.photosAdded ≤ (toAddOf (allOkEnv []).photos EngineState.initial.db).length ∧
      ((∀ i, (allOkEnv []).downloadOk i = true) → (∀ i, (allOkEnv []).uploadOk i = true) →
        ls.success = true →
        ls.photosAdded = (toAddOf (allOkEnv []).photos EngineState.initial.db).length) :=
  last_sync_postcondition (allOkEnv []) EngineState.initial rfl

/-- Claim C4 (confirmed).  Hard-delete batch atomicity: with deletions
enabled and a non-empty `toRemove` batch, if the Amazon-side batch call
fails every store row of the batch is left intact — so the identical
batch is recomputed by the next cycle — and rows are only deleted on the
success path, where the trace ends with the detach, trash, purge batch
calls in that order. -/
theorem hard_delete_batch_atomic (env : Env) (s : EngineState)
    (hrun : s.isRunning = false) (hgp : env.getPhotosOk = true)
    (hauth : env.authOk = true) (hsd : env.syncDeletions = true)
    (htr : toRemoveOf env.photos s.db ≠ []) :
    (env.removeBatchOk = false →
      ∀ m ∈ toRemoveOf env.photos s.db,
        m ∈ (run env s).state.db ∧
        m ∈ toRemoveOf env.photos (run env s).state.db) ∧
    (env.removeBatchOk = true →
      (∀ m ∈ toRemoveOf env.photos s.db,
        getMapping (run env s).state.db m.icloudId = none) ∧
      ∃ a pre, (run env s).events = pre ++
        [Ev.removeFromAlbum a ((toRemoveOf env.photos s.db).map (·.amazonId)),
         Ev.trash ((toRemoveOf env.photos s.db).map (·.amazonId)),
         Ev.purge ((toRemoveOf env.photos s.db).map (·.amazonId))]) := by
  have hpos : 0 < (toRemoveOf env.photos s.db).length := List.length_pos.mpr htr
  have hN : needsAmazonOf env s.db = true := by
    unfold needsAmazonOf
    rw [hsd]
    simp [hpos]
  rcases runBody_cases env { s with isRunning := true } with ⟨hg, hB⟩ |
      ⟨hg, m, s1, e1, hE, hB⟩ |
      ⟨hg, s1, e1, s2, e2, added, s3, e3, removed, hE, hP, hR, hB⟩
  · rw [hgp] at hg
    exact absurd hg (by simp)
  · have ho := maybeEnsure_outcome env { s with isRunning := true }
    rw [hE] at ho
    rw [hauth] at ho
    simp at ho
  · have hdb : s1.db = s.db := by
      have h := (maybeEnsure_frame env { s with isRunning := true }).1
      rw [hE] at h
      exact h
    have hMR : maybeRemove env s2 (toRemoveOf env.photos s.db) =
        ((removePhotos env s2 (toRemoveOf env.photos s.db)).1,
         (removePhotos env s2 (toRemoveOf env.photos s.db)).2,
         (toRemoveOf env.photos s.db).length) := by
      unfold maybeRemove
      rw [if_pos hpos, if_pos hsd]
    have hR2 : ((removePhotos env s2 (toRemoveOf env.photos s.db)).1,
        (removePhotos env s2 (toRemoveOf env.photos s.db)).2,
        (toRemoveOf env.photos s.db).length) = (s3, e3, removed) := by
      rw [← hMR]
      exact hR
    have hs3 : (removePhotos env s2 (toRemoveOf env.photos s.db)).1 = s3 :=
      congrArg Prod.fst hR2
    have he3 : (removePhotos env s2 (toRemoveOf env.photos s.db)).2 = e3 := by
      have := congrArg Prod.snd hR2
      exact congrArg Prod.fst this
    have hmem2 : ∀ m ∈ toRemoveOf env.photos s.db, m ∈ s2.db := by
      intro mm hm
      have h := processAdds_preserves env (toAddOf env.photos s.db) s1 0 mm
        (by rw [hdb]; exact toRemove_mem_db hm)
        (fun hx => toRemove_id_not_listed hm (toAdd_ids_subset env.photos s.db _ hx))
      rw [hP] at h
      exact h
    rw [run_of_ok env s hrun hB]
    constructor
    · intro hrb mm hm
      have hfail := removePhotos_fail env s2 (toRemoveOf env.photos s.db) hrb
      rw [hs3] at hfail
      have hmm : mm ∈ s3.db := by
        rw [hfail]
        exact hmem2 mm hm
      refine ⟨hmm, ?_⟩
      unfold toRemoveOf
      refine List.mem_filter.mpr ⟨hmm, ?_⟩
      simp only [Bool.not_eq_true', decide_eq_false_iff_not]
      exact toRemove_id_not_listed hm
    · intro hrb
      have hokdb := removePhotos_ok_db env s2 (toRemoveOf env.photos s.db) hrb
      rw [hs3] at hokdb
      constructor
      · intro mm hm
        have hdb3 : s3.db = s2.db.filter
            (fun r => !decide (r.icloudId ∈
              (toRemoveOf env.photos s.db).map (·.icloudId))) := by
          rw [hokdb]
        rw [hdb3]
        unfold getMapping
        rw [List.find?_eq_none]
        intro r hr
        have hr2 := List.mem_filter.mp hr
        have hrne : r.icloudId ∉ (toRemoveOf env.photos s.db).map (·.icloudId) := by
          have := hr2.2
          simpa using this
        intro habs
        apply hrne
        have : r.icloudId = mm.icloudId := by simpa using habs
        rw [this]
        exact List.mem_map.mpr ⟨mm, hm, rfl⟩
      · have halb : ∃ a, s1.albumId = some a := by
          have h := maybeEnsure_albumId env { s with isRunning := true } hauth hN
          rw [hE] at h
          exact h
        rcases halb with ⟨a, ha⟩
        have ha2 : s2.albumId = some a := by
          have h := (processAdds_frame env (toAddOf env.photos s.db) s1 0).2.2.1
          rw [hP] at h
          rw [show s2.albumId = s1.albumId from h]
          exact ha
        have hevs := removePhotos_ok_events env s2 (toRemoveOf env.photos s.db) hrb a ha2
        rw [he3] at hevs
        refine ⟨a, Ev.getPhotos :: (e1 ++ e2), ?_⟩
        rw [← hevs]
        simp [List.cons_append, List.append_assoc]

/-- Witness for C4: a concrete engine state with one stale row and a
failing batch call; after the cycle the row is still in the store and is
selected again for removal. -/
theorem hard_delete_batch_atomic_witness :
    (⟨"p1", "h1", "az1", 0⟩ : PhotoMapping) ∈
      (run { allOkEnv [] with removeBatchOk := false }
        { EngineState.initial with db := [⟨"p1", "h1", "az1", 0⟩] }).state.db ∧
    (⟨"p1", "h1", "az1", 0⟩ : PhotoMapping) ∈
      toRemoveOf ({ allOkEnv [] with removeBatchOk := false } : Env).photos
        (run { allOkEnv [] with removeBatchOk := false }
          { EngineState.initial with db := [⟨"p1", "h1", "az1", 0⟩] }).state.db :=
  (hard_delete_batch_atomic { allOkEnv [] with removeBatchOk := false }
    { EngineState.initial with db := [⟨"p1", "h1", "az1", 0⟩] }
    rfl rfl rfl rfl (by decide)).1 rfl ⟨"p1", "h1", "az1", 0⟩ (by decide)

/-- One successful removal pass on top of one successful additions pass
leaves exactly the listed ids in the store. -/
theorem ids_after_cycle (photos : List ICloudPhoto) (db db2 : List PhotoMapping)
    (hids2 : ∀ x, (x ∈ dbIds db2 ↔
      x ∈ dbIds db ∨ x ∈ (toAddOf photos db).map (·.id))) :
    ∀ x, (x ∈ dbIds (db2.filter
        (fun r => !decide (r.icloudId ∈ (toRemoveOf photos db).map (·.icloudId)))) ↔
      x ∈ photos.map (·.id)) := by
  intro x
  constructor
  · intro hx
    rcases mem_dbIds.mp hx with ⟨r, hr, rfl⟩
    have hr2 := List.mem_filter.mp hr
    have hrmem : r.icloudId ∈ dbIds db2 := mem_dbIds.mpr ⟨r, hr2.1, rfl⟩
    have hnotrem : r.icloudId ∉ (toRemoveOf photos db).map (·.icloudId) := by
      simpa using hr2.2
    rcases (hids2 _).mp hrmem with hold | hnew
    · rcases mem_dbIds.mp hold with ⟨r0, hr0, hid0⟩
      by_cases hph : r.icloudId ∈ photos.map (·.id)
      · exact hph
      · exfalso
        apply hnotrem
        refine List.mem_map.mpr ⟨r0, ?_, hid0⟩
        unfold toRemoveOf
        refine List.mem_filter.mpr ⟨hr0, ?_⟩
        simp only [Bool.not_eq_true', decide_eq_false_iff_not]
        rw [hid0]
        exact hph
    · exact toAdd_ids_subset photos db _ hnew
  · intro hx
    have hxnotrem : x ∉ (toRemoveOf photos db).map (·.icloudId) := by
      intro hmem
      rcases List.mem_map.mp hmem with ⟨r0, hr0, hid0⟩
      rw [← hid0] at hx
      exact toRemove_id_not_listed hr0 hx
    by_cases hold : x ∈ dbIds db
    · have hx2 : x ∈ dbIds db2 := (hids2 x).mpr (Or.inl hold)
      rcases mem_dbIds.mp hx2 with ⟨r, hr, hideq⟩
      refine mem_dbIds.mpr ⟨r, List.mem_filter.mpr ⟨hr, ?_⟩, hideq⟩
      rw [hideq]
      simpa using hxnotrem
    · rcases List.mem_map.mp hx with ⟨p, hp, hpid⟩
      have hpadd : p ∈ toAddOf photos db := by
        unfold toAddOf
        refine List.mem_filter.mpr ⟨hp, ?_⟩
        simp only [Bool.not_eq_true', decide_eq_false_iff_not]
        rw [hpid]
        exact hold
      have hx2 : x ∈ dbIds db2 := (hids2 x).mpr
        (Or.inr (List.mem_map.mpr ⟨p, hpadd, hpid⟩))
      rcases mem_dbIds.mp hx2 with ⟨r, hr, hideq⟩
      refine mem_dbIds.mpr ⟨r, List.mem_filter.mpr ⟨hr, ?_⟩, hideq⟩
      rw [hideq]
      simpa using hxnotrem

theorem run_clears_flag (env : Env) (s : EngineState) (h : s.isRunning = false) :
    (run env s).state.isRunning = false := by
  rcases run_idle env s h with ⟨s2, evs, a, r, hB, hrun⟩ |
      ⟨m, s2, evs, a, r, hB, hrun⟩ <;> rw [hrun]

/-- After a fully successful cycle the store id column is exactly the
listed photo ids. -/
theorem run_allok_ids (env : Env) (s : EngineState)
    (hrun : s.isRunning = false) (hgp : env.getPhotosOk = true)
    (hauth : env.authOk = true)
    (hd : ∀ i, env.downloadOk i = true) (hu : ∀ i, env.uploadOk i = true)
    (hrb : env.removeBatchOk = true) (hsd : env.syncDeletions = true) :
    ∀ x, (x ∈ dbIds (run env s).state.db ↔ x ∈ env.photos.map (·.id)) := by
  rcases runBody_cases env { s with isRunning := true } with ⟨hg, hB⟩ |
      ⟨hg, m, s1, e1, hE, hB⟩ |
      ⟨hg, s1, e1, s2, e2, added, s3, e3, removed, hE, hP, hR, hB⟩
  · rw [hgp] at hg
    exact absurd hg (by simp)
  · have ho := maybeEnsure_outcome env { s with isRunning := true }
    rw [hE, hauth] at ho
    simp at ho
  · have hdb : s1.db = s.db := by
      have h := (maybeEnsure_frame env { s with isRunning := true }).1
      rw [hE] at h
      exact h
    have hids2 : ∀ x, (x ∈ dbIds s2.db ↔
        x ∈ dbIds s.db ∨ x ∈ (toAddOf env.photos s.db).map (·.id)) := by
      intro x
      have h := processAdds_ids env hd hu (toAddOf env.photos s.db) s1 0 x
      rw [hP, hdb] at h
      exact h
    rw [run_of_ok env s hrun hB]
    intro x
    show x ∈ dbIds s3.db ↔ _
    by_cases hlen : 0 < (toRemoveOf env.photos s.db).length
    · have hMR : maybeRemove env s2 (toRemoveOf env.photos s.db) =
          ((removePhotos env s2 (toRemoveOf env.photos s.db)).1,
           (removePhotos env s2 (toRemoveOf env.photos s.db)).2,
           (toRemoveOf env.photos s.db).length) := by
        unfold maybeRemove
        rw [if_pos hlen, if_pos hsd]
      have hs3 : (removePhotos env s2 (toRemoveOf env.photos s.db)).1 = s3 :=
        congrArg Prod.fst (hMR.symm.trans hR)
      have hokdb := removePhotos_ok_db env s2 (toRemoveOf env.photos s.db) hrb
      rw [hs3] at hokdb
      have hdb3 : s3.db = s2.db.filter
          (fun r => !decide (r.icloudId ∈
            (toRemoveOf env.photos s.db).map (·.icloudId))) := by
        rw [hokdb]
      rw [hdb3]
      exact ids_after_cycle env.photos s.db s2.db hids2 x
    · have hnil : toRemoveOf env.photos s.db = [] :=
        List.length_eq_zero.mp (Nat.eq_zero_of_not_pos hlen)
      have hMR : maybeRemove env s2 (toRemoveOf env.photos s.db) =
          (s2, ([] : List Ev), 0) := by
        unfold maybeRemove
        rw [if_neg hlen]
      have hs3 : s2 = s3 := congrArg Prod.fst (hMR.symm.trans hR)
      rw [← hs3]
      have hfilt : s2.db.filter
          (fun r => !decide (r.icloudId ∈
            (toRemoveOf env.photos s.db).map (·.icloudId))) = s2.db := by
        rw [hnil]
        simp
      rw [← hfilt]
      exact ids_after_cycle env.photos s.db s2.db hids2 x

/-- Claim C2 (confirmed).  Idempotence of re-run: after one fully
successful cycle the diff of the unchanged listing against the store is
empty in both directions, and a second cycle run on the unchanged store
fetches the listing and does nothing else — no Amazon call of any kind,
no store change, successful outcome. -/
theorem rerun_idempotent (env : Env) (s : EngineState)
    (hrun : s.isRunning = false) (hgp : env.getPhotosOk = true)
    (hauth : env.authOk = true)
    (hd : ∀ i, env.downloadOk i = true) (hu : ∀ i, env.uploadOk i = true)
    (hrb : env.removeBatchOk = true) (hsd : env.syncDeletions = true) :
    toAddOf env.photos (run env s).state.db = [] ∧
    toRemoveOf env.photos (run env s).state.db = [] ∧
    (run env (run env s).state).events = [Ev.getPhotos] ∧
    (run env (run env s).state).state.db = (run env s).state.db ∧
    (run env (run env s).state).outcome = Except.ok () := by
  have hids := run_allok_ids env s hrun hgp hauth hd hu hrb hsd
  have hA0 : toAddOf env.photos (run env s).state.db = [] := by
    unfold toAddOf
    rw [List.filter_eq_nil_iff]
    intro p hp
    simp only [Bool.not_eq_true', decide_eq_false_iff_not, not_not]
    exact (hids p.id).mpr (List.mem_map.mpr ⟨p, hp, rfl⟩)
  have hR0 : toRemoveOf env.photos (run env s).state.db = [] := by
    unfold toRemoveOf
    rw [List.filter_eq_nil_iff]
    intro m hm
    simp only [Bool.not_eq_true', decide_eq_false_iff_not, not_not]
    exact (hids m.icloudId).mp (mem_dbIds.mpr ⟨m, hm, rfl⟩)
  have hrun2 : (run env s).state.isRunning = false := run_clears_flag env s hrun
  have hB2 := runBody_noop env { (run env s).state with isRunning := true } hgp hA0 hR0
  have hrun3 := run_of_ok env ((run env s).state) hrun2 hB2
  exact ⟨hA0, hR0, by rw [hrun3], by rw [hrun3], by rw [hrun3]⟩

/-- Witness for C2: one concrete photo synced, then re-run; the second
cycle only fetches the listing. -/
theorem rerun_idempotent_witness :
    toAddOf (allOkEnv [⟨"p1", "c1"⟩]).photos
      (run (allOkEnv [⟨"p1", "c1"⟩]) EngineState.initial).state.db = [] ∧
    toRemoveOf (allOkEnv [⟨"p1", "c1"⟩]).photos
      (run (allOkEnv [⟨"p1", "c1"⟩]) EngineState.initial).state.db = [] ∧
    (run (allOkEnv [⟨"p1", "c1"⟩])
      (run (allOkEnv [⟨"p1", "c1"⟩]) EngineState.initial).state).events = [Ev.getPhotos] ∧
    (run (allOkEnv [⟨"p1", "c1"⟩])
        (run (allOkEnv [⟨"p1", "c1"⟩]) EngineState.initial).state).state.db =
      (run (allOkEnv [⟨"p1", "c1"⟩]) EngineState.initial).state.db ∧
    (run (allOkEnv [⟨"p1", "c1"⟩])
      (run (allOkEnv [⟨"p1", "c1"⟩]) EngineState.initial).state).outcome = Except.ok () :=
  rerun_idempotent (allOkEnv [⟨"p1", "c1"⟩]) EngineState.initial
    rfl rfl rfl (fun _ => rfl) (fun _ => rfl) rfl rfl

/-- Claim C1 (confirmed).  Dedup invariant: for two distinct source ids
sharing one content hash, whether they arrive in the same cycle or in
two consecutive cycles, exactly one upload ever happens; the later item
is resolved by the checksum lookup, re-attached to the album without any
content transfer (no upload, no download), and both mapping rows carry
the same `amazonId`. -/
theorem dedup_single_upload (a1 b1 h : String) (hne : a1 ≠ b1) :
    (countEv Ev.isUpload
        (run (allOkEnv [⟨a1, h⟩, ⟨b1, h⟩]) EngineState.initial).events = 1 ∧
      ∃ t, (getMapping (run (allOkEnv [⟨a1, h⟩, ⟨b1, h⟩])
              EngineState.initial).state.db a1).map (·.amazonId) = some t ∧
        (getMapping (run (allOkEnv [⟨a1, h⟩, ⟨b1, h⟩])
          EngineState.initial).state.db b1).map (·.amazonId) = some t) ∧
    (countEv Ev.isUpload
        ((run (allOkEnv [⟨a1, h⟩]) EngineState.initial).events ++
          (run (allOkEnv [⟨a1, h⟩, ⟨b1, h⟩])
            (run (allOkEnv [⟨a1, h⟩]) EngineState.initial).state).events) = 1 ∧
      countEv Ev.isUpload
        (run (allOkEnv [⟨a1, h⟩, ⟨b1, h⟩])
          (run (allOkEnv [⟨a1, h⟩]) EngineState.initial).state).events = 0 ∧
      countEv Ev.isDownload
        (run (allOkEnv [⟨a1, h⟩, ⟨b1, h⟩])
          (run (allOkEnv [⟨a1, h⟩]) EngineState.initial).state).events = 0 ∧
      ∃ t, (getMapping (run (allOkEnv [⟨a1, h⟩, ⟨b1, h⟩])
              (run (allOkEnv [⟨a1, h⟩]) EngineState.initial).state).state.db a1).map
            (·.amazonId) = some t ∧
        (getMapping (run (allOkEnv [⟨a1, h⟩, ⟨b1, h⟩])
            (run (allOkEnv [⟨a1, h⟩]) EngineState.initial).state).state.db b1).map
          (·.amazonId) = some t ∧
        Ev.addToAlbumIfNotPresent (albumIdFor "Echo Show") [t] ∈
          (run (allOkEnv [⟨a1, h⟩, ⟨b1, h⟩])
            (run (allOkEnv [⟨a1, h⟩]) EngineState.initial).state).events) := by
  have h1 : run (allOkEnv [⟨a1, h⟩]) EngineState.initial =
      ⟨⟨[⟨a1, h, freshNodeId 0, 0⟩], false, true, some (albumIdFor "Echo Show"),
        ⟨some ⟨0, 0, 1, 0, true, none⟩, 1, 0, true⟩, 1, 0⟩,
       [Ev.getPhotos, Ev.checkAuth, Ev.findOrCreateAlbum "Echo Show",
        Ev.downloadPhoto a1, Ev.uploadPhoto (a1 ++ ".jpg"),
        Ev.addToAlbumIfNotPresent (albumIdFor "Echo Show") [freshNodeId 0]],
       Except.ok ()⟩ := by
    simp [run, runBody, maybeEnsure, ensureAmazonClient, needsAmazonOf, toAddOf,
      toRemoveOf, processAdds, addPhoto, getMappingByChecksum, addMapping,
      maybeRemove, allOkEnv, EngineState.initial, SyncMetrics.initial]
  have h2 : run (allOkEnv [⟨a1, h⟩, ⟨b1, h⟩])
      ⟨[⟨a1, h, freshNodeId 0, 0⟩], false, true, some (albumIdFor "Echo Show"),
        ⟨some ⟨0, 0, 1, 0, true, none⟩, 1, 0, true⟩, 1, 0⟩ =
      ⟨⟨[⟨a1, h, freshNodeId 0, 0⟩, ⟨b1, h, freshNodeId 0, 0⟩], false, true,
        some (albumIdFor "Echo Show"),
        ⟨some ⟨0, 0, 1, 0, true, none⟩, 2, 0, true⟩, 1, 0⟩,
       [Ev.getPhotos,
        Ev.addToAlbumIfNotPresent (albumIdFor "Echo Show") [freshNodeId 0]],
       Except.ok ()⟩ := by
    simp [run, runBody, maybeEnsure, ensureAmazonClient, needsAmazonOf, toAddOf,
      toRemoveOf, processAdds, addPhoto, getMappingByChecksum, addMapping,
      maybeRemove, allOkEnv, EngineState.initial, SyncMetrics.initial, hne,
      Ne.symm hne]
  have h3 : run (allOkEnv [⟨a1, h⟩, ⟨b1, h⟩]) EngineState.initial =
      ⟨⟨[⟨a1, h, freshNodeId 0, 0⟩, ⟨b1, h, freshNodeId 0, 0⟩], false, true,
        some (albumIdFor "Echo Show"),
        ⟨some ⟨0, 0, 2, 0, true, none⟩, 1, 0, true⟩, 1, 0⟩,
       [Ev.getPhotos, Ev.checkAuth, Ev.findOrCreateAlbum "Echo Show",
        Ev.downloadPhoto a1, Ev.uploadPhoto (a1 ++ ".jpg"),
        Ev.addToAlbumIfNotPresent (albumIdFor "Echo Show") [freshNodeId 0],
        Ev.addToAlbumIfNotPresent (albumIdFor "Echo Show") [freshNodeId 0]],
       Except.ok ()⟩ := by
    simp [run, runBody, maybeEnsure, ensureAmazonClient, needsAmazonOf, toAddOf,
      toRemoveOf, processAdds, addPhoto, getMappingByChecksum, addMapping,
      maybeRemove, allOkEnv, EngineState.initial, SyncMetrics.initial, hne,
      Ne.symm hne]
  rw [h1, h3]
  constructor
  · refine ⟨by simp [countEv, Ev.isUpload], freshNodeId 0, ?_, ?_⟩
    · simp [getMapping]
    · simp [getMapping, hne, Ne.symm hne]
  · rw [h2]
    refine ⟨by simp [countEv, Ev.isUpload], by simp [countEv, Ev.isUpload],
      by simp [countEv, Ev.isDownload], freshNodeId 0, ?_, ?_, by simp⟩
    · simp [getMapping]
    · simp [getMapping, hne, Ne.symm hne]

/-- Witness for C1: two concrete items with one shared hash. -/
theorem dedup_single_upload_witness :
    (countEv Ev.isUpload
        (run (allOkEnv [⟨"a1", "h"⟩, ⟨"b1", "h"⟩]) EngineState.initial).events = 1 ∧
      ∃ t, (getMapping (run (allOkEnv [⟨"a1", "h"⟩, ⟨"b1", "h"⟩])
              EngineState.initial).state.db "a1").map (·.amazonId) = some t ∧
        (getMapping (run (allOkEnv [⟨"a1", "h"⟩, ⟨"b1", "h"⟩])
          EngineState.initial).state.db "b1").map (·.amazonId) = some t) ∧
    (countEv Ev.isUpload
        ((run (allOkEnv [⟨"a1", "h"⟩]) EngineState.initial).events ++
          (run (allOkEnv [⟨"a1", "h"⟩, ⟨"b1", "h"⟩])
            (run (allOkEnv [⟨"a1", "h"⟩]) EngineState.initial).state).events) = 1 ∧
      countEv Ev.isUpload
        (run (allOkEnv [⟨"a1", "h"⟩, ⟨"b1", "h"⟩])
          (run (allOkEnv [⟨"a1", "h"⟩]) EngineState.initial).state).events = 0 ∧
      countEv Ev.isDownload
        (run (allOkEnv [⟨"a1", "h"⟩, ⟨"b1", "h"⟩])
          (run (allOkEnv [⟨"a1", "h"⟩]) EngineState.initial).state).events = 0 ∧
      ∃ t, (getMapping (run (allOkEnv [⟨"a1", "h"⟩, ⟨"b1", "h"⟩])
              (run (allOkEnv [⟨"a1", "h"⟩]) EngineState.initial).state).state.db "a1").map
            (·.amazonId) = some t ∧
        (getMapping (run (allOkEnv [⟨"a1", "h"⟩, ⟨"b1", "h"⟩])
            (run (allOkEnv [⟨"a1", "h"⟩]) EngineState.initial).state).state.db "b1").map
          (·.amazonId) = some t ∧
        Ev.addToAlbumIfNotPresent (albumIdFor "Echo Show") [t] ∈
          (run (allOkEnv [⟨"a1", "h"⟩, ⟨"b1", "h"⟩])
            (run (allOkEnv [⟨"a1", "h"⟩]) EngineState.initial).state).events) :=
  dedup_single_upload "a1" "b1" "h" (by decide)

/-- Claim C5 (confirmed).  Per-item failure isolation: with two
additions where the first download throws and the second succeeds, the
error is caught at the item boundary, the second item ends with a store
row, the first has none, and the cycle is recorded as successful with
`photosAdded = 1`. -/
theorem per_item_failure_isolated (a1 b1 h1 h2 : String) (hne : a1 ≠ b1) :
    (run { allOkEnv [⟨a1, h1⟩, ⟨b1, h2⟩] with downloadOk := fun i => !decide (i = a1) }
        EngineState.initial).state.db = [⟨b1, h2, freshNodeId 0, 0⟩] ∧
    getMapping (run { allOkEnv [⟨a1, h1⟩, ⟨b1, h2⟩] with
        downloadOk := fun i => !decide (i = a1) }
      EngineState.initial).state.db a1 = none ∧
    (getMapping (run { allOkEnv [⟨a1, h1⟩, ⟨b1, h2⟩] with
        downloadOk := fun i => !decide (i = a1) }
      EngineState.initial).state.db b1).isSome = true ∧
    (run { allOkEnv [⟨a1, h1⟩, ⟨b1, h2⟩] with downloadOk := fun i => !decide (i = a1) }
      EngineState.initial).state.metrics.lastSync = some ⟨0, 0, 1, 0, true, none⟩ ∧
    (run { allOkEnv [⟨a1, h1⟩, ⟨b1, h2⟩] with downloadOk := fun i => !decide (i = a1) }
      EngineState.initial).outcome = Except.ok () := by
  have hc : run { allOkEnv [⟨a1, h1⟩, ⟨b1, h2⟩] with
      downloadOk := fun i => !decide (i = a1) } EngineState.initial =
      ⟨⟨[⟨b1, h2, freshNodeId 0, 0⟩], false, true, some (albumIdFor "Echo Show"),
        ⟨some ⟨0, 0, 1, 0, true, none⟩, 1, 0, true⟩, 1, 0⟩,
       [Ev.getPhotos, Ev.checkAuth, Ev.findOrCreateAlbum "Echo Show",
        Ev.downloadPhoto b1, Ev.uploadPhoto (b1 ++ ".jpg"),
        Ev.addToAlbumIfNotPresent (albumIdFor "Echo Show") [freshNodeId 0]],
       Except.ok ()⟩ := by
    simp [run, runBody, maybeEnsure, ensureAmazonClient, needsAmazonOf, toAddOf,
      toRemoveOf, processAdds, addPhoto, getMappingByChecksum, addMapping,
      maybeRemove, allOkEnv, EngineState.initial, SyncMetrics.initial, hne,
      Ne.symm hne]
  rw [hc]
  refine ⟨rfl, ?_, ?_, rfl, rfl⟩
  · simp [getMapping, hne, Ne.symm hne]
  · simp [getMapping]

/-- Witness for C5: concrete items where the first download fails. -/
theorem per_item_failure_isolated_witness :
    (run { allOkEnv [⟨"a1", "h1"⟩, ⟨"b1", "h2"⟩] with
        downloadOk := fun i => !decide (i = "a1") }
        EngineState.initial).state.db = [⟨"b1", "h2", freshNodeId 0, 0⟩] ∧
    getMapping (run { allOkEnv [⟨"a1", "h1"⟩, ⟨"b1", "h2"⟩] with
        downloadOk := fun i => !decide (i = "a1") }
      EngineState.initial).state.db "a1" = none ∧
    (getMapping (run { allOkEnv [⟨"a1", "h1"⟩, ⟨"b1", "h2"⟩] with
        downloadOk := fun i => !decide (i = "a1") }
      EngineState.initial).state.db "b1").isSome = true ∧
    (run { allOkEnv [⟨"a1", "h1"⟩, ⟨"b1", "h2"⟩] with
        downloadOk := fun i => !decide (i = "a1") }
      EngineState.initial).state.metrics.lastSync = some ⟨0, 0, 1, 0, true, none⟩ ∧
    (run { allOkEnv [⟨"a1", "h1"⟩, ⟨"b1", "h2"⟩] with
        downloadOk := fun i => !decide (i = "a1") }
      EngineState.initial).outcome = Except.ok () :=
  per_item_failure_isolated "a1" "b1" "h1" "h2" (by decide)

end AlexaPhotos
